import Mathlib

/-!
Verification development for the NMRI command-line calculator (src/nmri.c).

The expression core of the program is shallowly embedded here:

* `D` models a C `double`: an exact rational (`fin`), the two infinities, or
  `nan`.  Binary doubles are rationals, so the finite fragment is idealized by
  exact rational arithmetic; the IEEE special-value rules (NaN propagation,
  infinity arithmetic, NaN-is-unordered comparisons) are modelled explicitly,
  because the program uses `NAN` as its error sentinel and `isnan` as its
  success test.
* Genuinely transcendental primitives (`sin`, `log`, irrational powers, ...)
  have irrational values that no executable exact carrier can hold; they are
  collected in a `RealOps` parameter block, and every theorem below is proved
  for an arbitrary interpretation of those primitives.  Everything the claims
  depend on (tokenization, precedence, percentage handling, domain checks,
  error propagation, state commits) is embedded concretely from the source.
* `tokenize`, `shunting_yard`, `evaluate_postfix`, `evaluate_expression`,
  `handle_assignment`, `find_variable`, `set_variable` and the `main`-loop
  assignment detection (`classifyLine`) are direct translations of the
  functions of the same names in src/nmri.c.
* Mathlib's arithmetic operations on `ℚ` are irreducible, so the embedding
  computes with small kernel-reducible wrappers (`qadd`, `qmul`, ...) built
  on `mkRat`; the bridge lemmas right after them prove each wrapper equal to
  the corresponding Mathlib operation, and theorem statements use ordinary
  rational arithmetic.
-/

deriving instance DecidableEq for Except

namespace Nmri

/-! ### Kernel-computable rational arithmetic -/

/-- Rational from a numerator and a (possibly negative) denominator. -/
def qmk (n d : ℤ) : ℚ := if d < 0 then mkRat (-n) (-d).toNat else mkRat n d.toNat

/-- Addition on `ℚ` by cross-multiplication. -/
def qadd (a b : ℚ) : ℚ := mkRat (a.num * b.den + b.num * a.den) (a.den * b.den)

/-- Negation on `ℚ`. -/
def qneg (a : ℚ) : ℚ := mkRat (-a.num) a.den

/-- Subtraction on `ℚ`. -/
def qsub (a b : ℚ) : ℚ := qadd a (qneg b)

/-- Multiplication on `ℚ`. -/
def qmul (a b : ℚ) : ℚ := mkRat (a.num * b.num) (a.den * b.den)

/-- Division on `ℚ` (0 when the divisor is 0, as in Mathlib). -/
def qdiv (a b : ℚ) : ℚ := qmk (a.num * b.den) (a.den * b.num)

/-- Embedding of an integer into `ℚ`. -/
def qint (n : ℤ) : ℚ := mkRat n 1

/-- Absolute value on `ℚ`. -/
def qabs (a : ℚ) : ℚ := mkRat a.num.natAbs a.den

/-- Floor of a rational as an integer. -/
def qfloorZ (a : ℚ) : ℤ := a.num.fdiv a.den

/-- Ceiling of a rational as an integer. -/
def qceilZ (a : ℚ) : ℤ := -((-a.num).fdiv a.den)

/-- Truncation toward zero (the conversion used by `fmod`). -/
def qtruncZ (a : ℚ) : ℤ := if 0 ≤ a.num then qfloorZ a else qceilZ a

/-- Natural power on `ℚ`. -/
def qnpow (a : ℚ) : ℕ → ℚ
  | 0 => 1
  | n + 1 => qmul (qnpow a n) a

/-- Integer power on `ℚ` (negative exponents via the reciprocal). -/
def qzpow (a : ℚ) : ℤ → ℚ
  | .ofNat n => qnpow a n
  | .negSucc n => qmk (qnpow a (n + 1)).den (qnpow a (n + 1)).num

/-! Bridge lemmas: the wrappers agree with Mathlib's operations. -/

theorem qmk_eq (n d : ℤ) : qmk n d = (n : ℚ) / (d : ℚ) := by
  unfold qmk
  split
  · rename_i h
    rw [Rat.mkRat_eq_div]
    have h2 : (((-d).toNat : ℕ) : ℚ) = ((-d : ℤ) : ℚ) := by
      exact_mod_cast congrArg (fun z : ℤ => (z : ℚ)) (Int.toNat_of_nonneg (by omega : (0:ℤ) ≤ -d))
    rw [h2]
    push_cast
    rw [neg_div_neg_eq]
  · rename_i h
    rw [Rat.mkRat_eq_div]
    have h2 : ((d.toNat : ℕ) : ℚ) = ((d : ℤ) : ℚ) := by
      exact_mod_cast congrArg (fun z : ℤ => (z : ℚ)) (Int.toNat_of_nonneg (by omega : (0:ℤ) ≤ d))
    rw [h2]

theorem qadd_eq (a b : ℚ) : qadd a b = a + b := by
  have ha : ((a.den : ℚ)) ≠ 0 := by exact_mod_cast a.den_ne_zero
  have hb : ((b.den : ℚ)) ≠ 0 := by exact_mod_cast b.den_ne_zero
  unfold qadd
  rw [Rat.mkRat_eq_div]
  conv_rhs => rw [← Rat.num_div_den a, ← Rat.num_div_den b]
  rw [div_add_div _ _ ha hb]
  push_cast
  ring_nf

theorem qneg_eq (a : ℚ) : qneg a = -a := by
  unfold qneg
  rw [Rat.mkRat_eq_div]
  conv_rhs => rw [← Rat.num_div_den a]
  push_cast
  rw [neg_div]

theorem qsub_eq (a b : ℚ) : qsub a b = a - b := by
  unfold qsub
  rw [qadd_eq, qneg_eq, sub_eq_add_neg]

theorem qmul_eq (a b : ℚ) : qmul a b = a * b := by
  have ha : ((a.den : ℚ)) ≠ 0 := by exact_mod_cast a.den_ne_zero
  have hb : ((b.den : ℚ)) ≠ 0 := by exact_mod_cast b.den_ne_zero
  unfold qmul
  rw [Rat.mkRat_eq_div]
  conv_rhs => rw [← Rat.num_div_den a, ← Rat.num_div_den b]
  rw [div_mul_div_comm]
  push_cast
  ring_nf

theorem qdiv_eq (a b : ℚ) : qdiv a b = a / b := by
  unfold qdiv
  rw [qmk_eq]
  by_cases hb : b = 0
  · subst hb; simp
  · have ha : ((a.den : ℚ)) ≠ 0 := by exact_mod_cast a.den_ne_zero
    have hbd : ((b.den : ℚ)) ≠ 0 := by exact_mod_cast b.den_ne_zero
    have hbn : ((b.num : ℚ)) ≠ 0 := by
      exact_mod_cast Rat.num_ne_zero.mpr hb
    conv_rhs => rw [← Rat.num_div_den a, ← Rat.num_div_den b]
    push_cast
    field_simp

theorem qint_eq (n : ℤ) : qint n = (n : ℚ) := by
  unfold qint
  rw [Rat.mkRat_eq_div, Nat.cast_one, div_one]

theorem qabs_eq (a : ℚ) : qabs a = |a| := by
  have ha : ((a.den : ℚ)) ≠ 0 := by exact_mod_cast a.den_ne_zero
  unfold qabs
  rw [Rat.mkRat_eq_div]
  conv_rhs => rw [← Rat.num_div_den a]
  rw [abs_div]
  have h1 : |((a.den : ℚ))| = (a.den : ℚ) := abs_of_pos (by positivity)
  rw [h1]
  congr 1
  simp [Int.cast_natAbs]

theorem qfloorZ_eq (a : ℚ) : qfloorZ a = ⌊a⌋ := by
  unfold qfloorZ
  rw [Rat.floor_def, Int.fdiv_eq_ediv _ (by positivity)]

theorem qceilZ_eq (a : ℚ) : qceilZ a = ⌈a⌉ := by
  unfold qceilZ
  have h1 : (-a).num = -a.num := by exact_mod_cast Rat.neg_num a
  have h2 : (-a).den = a.den := Rat.neg_den a
  have h3 : (-a.num).fdiv a.den = ⌊-a⌋ := by
    rw [← qfloorZ_eq (-a)]
    unfold qfloorZ
    rw [h1, h2]
  rw [h3]
  rfl

theorem qnpow_eq (a : ℚ) (n : ℕ) : qnpow a n = a ^ n := by
  induction n with
  | zero => simp [qnpow]
  | succ k ih => rw [qnpow, qmul_eq, ih, pow_succ]

theorem qmk_den_num_eq_inv (q : ℚ) : qmk q.den q.num = q⁻¹ := by
  rw [qmk_eq]
  conv_rhs => rw [← Rat.num_div_den q]
  rw [inv_div]
  push_cast
  ring_nf

theorem qzpow_eq (a : ℚ) (n : ℤ) : qzpow a n = a ^ n := by
  cases n with
  | ofNat m => rw [qzpow, qnpow_eq]; norm_num
  | negSucc m =>
    rw [qzpow, qmk_den_num_eq_inv, zpow_negSucc, qnpow_eq]

/-! ### The double model -/

/-- Model of a C `double`: an exact rational, `+inf`, `-inf`, or NaN. -/
inductive D where
  | fin (q : ℚ)
  | pinf
  | ninf
  | nan
deriving DecidableEq, Repr

/-- `isnan` from math.h. -/
def D.isNaN : D → Bool
  | .nan => true
  | _ => false

/-- IEEE negation (sign flip; NaN stays NaN). -/
def dneg : D → D
  | .fin q => .fin (qneg q)
  | .pinf => .ninf
  | .ninf => .pinf
  | .nan => .nan

/-- IEEE addition on the model: NaN propagates, `(+inf) + (-inf)` is NaN,
finite values add exactly. -/
def dadd : D → D → D
  | .nan, _ => .nan
  | _, .nan => .nan
  | .fin a, .fin b => .fin (qadd a b)
  | .fin _, .pinf => .pinf
  | .fin _, .ninf => .ninf
  | .pinf, .fin _ => .pinf
  | .ninf, .fin _ => .ninf
  | .pinf, .pinf => .pinf
  | .ninf, .ninf => .ninf
  | .pinf, .ninf => .nan
  | .ninf, .pinf => .nan

/-- IEEE subtraction, modelled as `a + (-b)` (exact on finite values,
`inf - inf` is NaN). -/
def dsub (a b : D) : D := dadd a (dneg b)

/-- IEEE multiplication: NaN propagates, `0 * inf` is NaN, signs of
infinities follow the sign of the finite factor. -/
def dmul : D → D → D
  | .nan, _ => .nan
  | _, .nan => .nan
  | .fin a, .fin b => .fin (qmul a b)
  | .fin a, .pinf => if 0 < a.num then .pinf else if a.num < 0 then .ninf else .nan
  | .fin a, .ninf => if 0 < a.num then .ninf else if a.num < 0 then .pinf else .nan
  | .pinf, .fin b => if 0 < b.num then .pinf else if b.num < 0 then .ninf else .nan
  | .ninf, .fin b => if 0 < b.num then .ninf else if b.num < 0 then .pinf else .nan
  | .pinf, .pinf => .pinf
  | .pinf, .ninf => .ninf
  | .ninf, .pinf => .ninf
  | .ninf, .ninf => .pinf

/-- IEEE division: NaN propagates, `inf/inf` is NaN, finite/inf is 0,
inf/finite keeps the sign.  The finite/0 case is NaN here; in the program
every division is guarded by the evaluator's explicit `b == 0.0` test, so
this case is never reached with a zero divisor (signed zeroes are not
modelled). -/
def ddiv : D → D → D
  | .nan, _ => .nan
  | _, .nan => .nan
  | .fin a, .fin b => if b.num = 0 then .nan else .fin (qdiv a b)
  | .fin _, .pinf => .fin 0
  | .fin _, .ninf => .fin 0
  | .pinf, .fin b => if b.num < 0 then .ninf else .pinf
  | .ninf, .fin b => if b.num < 0 then .pinf else .ninf
  | .pinf, .pinf => .nan
  | .pinf, .ninf => .nan
  | .ninf, .pinf => .nan
  | .ninf, .ninf => .nan

/-- IEEE `<`: false whenever either side is NaN. -/
def dlt : D → D → Bool
  | .nan, _ => false
  | _, .nan => false
  | .fin a, .fin b => a.num * b.den < b.num * a.den
  | .fin _, .pinf => true
  | .fin _, .ninf => false
  | .pinf, _ => false
  | .ninf, .ninf => false
  | .ninf, _ => true

/-- IEEE `<=`: false whenever either side is NaN. -/
def dle : D → D → Bool
  | .nan, _ => false
  | _, .nan => false
  | .fin a, .fin b => a.num * b.den ≤ b.num * a.den
  | .fin _, .pinf => true
  | .fin _, .ninf => false
  | .pinf, .pinf => true
  | .pinf, _ => false
  | .ninf, _ => true

/-- IEEE equality test with `0.0` (the evaluator's divisor guard):
true exactly for the finite value 0 (NaN and infinities compare false). -/
def deqZero : D → Bool
  | .fin q => q.num = 0
  | _ => false

/-- C `fmod`: NaN propagates, `fmod(±inf, y)` is NaN, `fmod(x, ±inf) = x`
for finite `x`, and on finite operands `a - b * trunc(a/b)` exactly.  The
zero-divisor case is NaN here; the evaluator guards it with its explicit
`b == 0.0` test. -/
def dfmod : D → D → D
  | .nan, _ => .nan
  | _, .nan => .nan
  | .pinf, _ => .nan
  | .ninf, _ => .nan
  | .fin a, .pinf => .fin a
  | .fin a, .ninf => .fin a
  | .fin a, .fin b =>
      if b.num = 0 then .nan
      else .fin (qsub a (qmul b (qint (qtruncZ (qdiv a b)))))

/-- C `fabs` on the model. -/
def dabs : D → D
  | .fin q => .fin (qabs q)
  | .pinf => .pinf
  | .ninf => .pinf
  | .nan => .nan

/-- C `floor` on the model. -/
def dfloor : D → D
  | .fin q => .fin (qint (qfloorZ q))
  | .pinf => .pinf
  | .ninf => .ninf
  | .nan => .nan

/-- C `ceil` on the model. -/
def dceil : D → D
  | .fin q => .fin (qint (qceilZ q))
  | .pinf => .pinf
  | .ninf => .ninf
  | .nan => .nan

/-- C `round` (round half away from zero) on the model. -/
def dround : D → D
  | .fin q =>
      if 0 ≤ q.num then .fin (qint (qfloorZ (qadd q (mkRat 1 2))))
      else .fin (qneg (qint (qfloorZ (qadd (qneg q) (mkRat 1 2)))))
  | .pinf => .pinf
  | .ninf => .ninf
  | .nan => .nan

/-- Uninterpreted transcendental primitives.  The C program delegates these
to libm; their values on finite arguments are irrational reals in general, so
they are parameters of the development and every theorem holds for all
interpretations.  `powIrr` is the value of `pow(a, e)` for a finite positive
base and a finite non-integer exponent (the only `pow` case whose true value
is irrational). -/
structure RealOps where
  sin : D → D
  cos : D → D
  tan : D → D
  asin : D → D
  acos : D → D
  atan : D → D
  log : D → D
  sqrt : D → D
  exp : D → D
  powIrr : ℚ → ℚ → D

/-- A fixed throw-away interpretation of the transcendental primitives, used
only to instantiate universally quantified theorems on concrete inputs that
never reach a transcendental call. -/
def dummyOps : RealOps :=
  ⟨fun _ => .nan, fun _ => .nan, fun _ => .nan, fun _ => .nan, fun _ => .nan,
   fun _ => .nan, fun _ => .nan, fun _ => .nan, fun _ => .nan, fun _ _ => .nan⟩

/-- C `pow` on the model.  IEEE rules: `pow(x, 0) = 1` and `pow(1, y) = 1`
for every `x`/`y` (NaN included); otherwise NaN propagates; infinite
operands follow the magnitude rules; a finite base with an integer exponent
is computed exactly; a negative finite base with a non-integer exponent is
NaN; a positive finite base with a non-integer exponent is the uninterpreted
`ops.powIrr` (its true value is irrational).  Signed zeroes are not
modelled, so results that differ only in the sign of zero or of an infinity
collapse to the positive one. -/
def dpow (ops : RealOps) : D → D → D
  | a, .fin e =>
      if e.num = 0 then .fin 1
      else
        match a with
        | .fin q =>
            if q = 1 then .fin 1
            else if q.num = 0 then (if 0 < e.num then .fin 0 else .pinf)
            else if e.den = 1 then .fin (qzpow q e.num)
            else if q.num < 0 then .nan
            else ops.powIrr q e
        | .pinf => if 0 < e.num then .pinf else .fin 0
        | .ninf =>
            if 0 < e.num then (if e.den = 1 ∧ e.num % 2 = 1 then .ninf else .pinf)
            else .fin 0
        | .nan => .nan
  | .fin q, b =>
      if q = 1 then .fin 1
      else
        match b with
        | .pinf =>
            if ((qabs q).den : ℤ) < (qabs q).num then .pinf
            else if (qabs q).num = ((qabs q).den : ℤ) then .fin 1
            else .fin 0
        | .ninf =>
            if ((qabs q).den : ℤ) < (qabs q).num then .fin 0
            else if (qabs q).num = ((qabs q).den : ℤ) then .fin 1
            else .pinf
        | .nan => .nan
        | .fin _ => .nan
  | .pinf, .pinf => .pinf
  | .ninf, .pinf => .pinf
  | .pinf, .ninf => .fin 0
  | .ninf, .ninf => .fin 0
  | .pinf, .nan => .nan
  | .ninf, .nan => .nan
  | .nan, _ => .nan

/-! ### Tokens, calculator state, and the variable store -/

/-- `MAX_TOKENS` from src/nmri.c. -/
def maxTokens : ℕ := 100

/-- `MAX_IDENTIFIER_LEN` from src/nmri.c. -/
def maxIdentifierLen : ℕ := 32

/-- `MAX_VARIABLES` from src/nmri.c. -/
def maxVariables : ℕ := 100

/-- `OperatorType` from src/nmri.c. -/
inductive Op where
  | add | sub | mul | div | pow | mod
deriving DecidableEq, Repr

/-- `FunctionType` from src/nmri.c (no `FUNC_INVALID`: the tokenizer never
emits it). -/
inductive Fn where
  | sin | cos | tan | asin | acos | atan | log | sqrt | exp
  | abs | floor | ceil | round
deriving DecidableEq, Repr

/-- `Token` from src/nmri.c.  `TOKEN_VARIABLE` is omitted: the tokenizer
resolves variables to numbers and never produces it (the source marks it as
legacy). -/
inductive Token where
  | num (v : D) (pct : Bool)
  | op (o : Op)
  | fn (f : Fn)
  | lparen
  | rparen
  | assign (name : String)
deriving DecidableEq, Repr

/-- The calculator's shared mutable state: the variable store (`variables` /
`variable_count`) and `last_result`.  The `memory` register and the
history/logging state are irrelevant to the claims and are omitted. -/
structure CalcState where
  vars : List (String × D)
  lastResult : D
deriving DecidableEq, Repr

/-- `find_variable`: linear scan, first match by name, returning the stored
value. -/
def findVariable : List (String × D) → String → Option D
  | [], _ => none
  | p :: rest, name => if p.1 == name then some p.2 else findVariable rest name

/-- Replace the value of the first binding of `name` (helper for
`set_variable`'s update-in-place branch). -/
def replaceFirst : List (String × D) → String → D → List (String × D)
  | [], _, _ => []
  | p :: rest, name, v =>
      if p.1 == name then (p.1, v) :: rest else p :: replaceFirst rest name v

/-- `set_variable`: reject an empty name, update in place when the name
exists, append when there is room, fail (`none`) when the store is full. -/
def setVariable (vars : List (String × D)) (name : String) (value : D) :
    Option (List (String × D)) :=
  if name = "" then none
  else if (findVariable vars name).isSome then some (replaceFirst vars name value)
  else if maxVariables ≤ vars.length then none
  else some (vars ++ [(name, value)])

/-- State after `main`'s startup `set_variable("ans", 0.0)` with
`last_result = 0.0`. -/
def initState : CalcState := ⟨[("ans", .fin 0)], .fin 0⟩

/-! Facts about the variable store used by the round-trip and commit
theorems. -/

theorem findVariable_replaceFirst_self (vars : List (String × D)) (name : String) (v : D)
    (h : (findVariable vars name).isSome) :
    findVariable (replaceFirst vars name v) name = some v := by
  induction vars with
  | nil => simp [findVariable] at h
  | cons p rest ih =>
    by_cases hp : p.1 == name
    · simp [replaceFirst, hp, findVariable]
    · simp only [findVariable, hp, if_false] at h
      simp [replaceFirst, hp, findVariable, ih h]

theorem findVariable_replaceFirst_other (vars : List (String × D)) (name n' : String) (v : D)
    (hne : n' ≠ name) :
    findVariable (replaceFirst vars name v) n' = findVariable vars n' := by
  induction vars with
  | nil => simp [replaceFirst]
  | cons p rest ih =>
    by_cases hp : p.1 == name
    · have hp' : (p.1 == n') = false := by
        have hpn : p.1 = name := by simpa using hp
        rw [hpn]
        exact beq_eq_false_iff_ne.mpr (Ne.symm hne)
      simp [replaceFirst, hp, findVariable, hp']
    · simp [replaceFirst, hp, findVariable, ih]

theorem findVariable_append_of_none (vars l : List (String × D)) (name : String)
    (h : findVariable vars name = none) :
    findVariable (vars ++ l) name = findVariable l name := by
  induction vars with
  | nil => simp
  | cons p rest ih =>
    by_cases hp : p.1 == name
    · simp [findVariable, hp] at h
    · simp only [findVariable, hp, if_false] at h
      simp [findVariable, hp, ih h]

theorem findVariable_append_of_some (vars l : List (String × D)) (name : String) (d : D)
    (h : findVariable vars name = some d) :
    findVariable (vars ++ l) name = some d := by
  induction vars with
  | nil => simp [findVariable] at h
  | cons p rest ih =>
    by_cases hp : p.1 == name
    · simp only [findVariable, hp, if_true] at h ⊢
      simpa using h
    · simp only [findVariable, hp, if_false] at h
      simp [findVariable, hp, ih h]

theorem setVariable_self (vars vs' : List (String × D)) (name : String) (v : D)
    (h : setVariable vars name v = some vs') :
    findVariable vs' name = some v := by
  unfold setVariable at h
  split_ifs at h with h1 h2 h3
  · injection h with h
    subst h
    exact findVariable_replaceFirst_self vars name v h2
  · injection h with h
    subst h
    have hnone : findVariable vars name = none := by
      cases hf : findVariable vars name with
      | none => rfl
      | some d => rw [hf] at h2; simp at h2
    rw [findVariable_append_of_none _ _ _ hnone]
    simp [findVariable]

theorem setVariable_other (vars vs' : List (String × D)) (name n' : String) (v : D)
    (h : setVariable vars name v = some vs') (hne : n' ≠ name) :
    findVariable vs' n' = findVariable vars n' := by
  unfold setVariable at h
  split_ifs at h with h1 h2 h3
  · injection h with h
    subst h
    exact findVariable_replaceFirst_other vars name n' v hne
  · injection h with h
    subst h
    cases hf : findVariable vars n' with
    | some d => exact findVariable_append_of_some _ _ _ _ hf
    | none =>
      rw [findVariable_append_of_none _ _ _ hf]
      have hb : (name == n') = false := beq_eq_false_iff_ne.mpr (Ne.symm hne)
      simp [findVariable, hb]

theorem setVariable_preserves_isSome (vars vs' : List (String × D)) (name n' : String) (v : D)
    (h : setVariable vars name v = some vs') (h2 : (findVariable vars n').isSome) :
    (findVariable vs' n').isSome := by
  by_cases he : n' = name
  · subst he
    rw [setVariable_self vars vs' n' v h]
    rfl
  · rw [setVariable_other vars vs' name n' v h he]
    exact h2

theorem setVariable_of_found (vars : List (String × D)) (name : String) (v : D)
    (hname : name ≠ "") (h : (findVariable vars name).isSome) :
    setVariable vars name v = some (replaceFirst vars name v) := by
  unfold setVariable
  rw [if_neg hname, if_pos h]

/-! ### The lexer (`tokenize` from src/nmri.c) -/

/-- C `isspace` in the default locale. -/
def isSpaceC (c : Char) : Bool :=
  c == ' ' || c == '\t' || c == '\n' || c == '\x0b' || c == '\x0c' || c == '\r'

/-- C `isalpha` in the default locale (ASCII letters). -/
def isAlphaC (c : Char) : Bool :=
  ('A' ≤ c && c ≤ 'Z') || ('a' ≤ c && c ≤ 'z')

/-- C `isdigit`. -/
def isDigitC (c : Char) : Bool := '0' ≤ c && c ≤ '9'

/-- C `isalnum` in the default locale. -/
def isAlnumC (c : Char) : Bool := isAlphaC c || isDigitC c

/-- First character of an identifier: `isalpha(c) || c == '_'`. -/
def isIdentStart (c : Char) : Bool := isAlphaC c || c == '_'

/-- Later characters of an identifier: `isalnum(c) || c == '_'`. -/
def isIdentChar (c : Char) : Bool := isAlnumC c || c == '_'

/-- Membership in `"+-*/^%"` (the `strchr` test of the tokenizer and the
`strpbrk` set of `main`'s assignment detection). -/
def isOpChar (c : Char) : Bool :=
  c == '+' || c == '-' || c == '*' || c == '/' || c == '^' || c == '%'

/-- `char_to_op`.  Total here because every caller guards with `isOpChar`
(the `-1` branch of the C function is unreachable from those call sites). -/
def charToOp (c : Char) : Op :=
  if c == '+' then .add
  else if c == '-' then .sub
  else if c == '*' then .mul
  else if c == '/' then .div
  else if c == '^' then .pow
  else .mod

/-- Lexer errors (the distinct `return -1` sites of `tokenize`). -/
inductive LexErr where
  | tooComplex
  | identifierTooLong (name : String)
  | unknownIdentifier (name : String)
  | invalidChar (c : Char)
deriving DecidableEq, Repr

/-- `M_PI` (the closest double to π), as an exact rational. -/
def piVal : ℚ := mkRat 884279719003555 281474976710656

/-- `M_E` (the closest double to e), as an exact rational. -/
def eVal : ℚ := mkRat 6121026514868073 2251799813685248

/-- The golden ratio constant; the program computes `(1.0 + sqrt(5.0))/2.0`
at run time.  Idealized by its 16-digit decimal value (no claim depends on
its exact bits). -/
def phiVal : ℚ := mkRat 1618033988749895 1000000000000000

/-- The Euler-Mascheroni literal `0.5772156649015329` (decimal value;
binary rounding of the literal is not modelled). -/
def gammaVal : ℚ := mkRat 5772156649015329 10000000000000000

/-- Speed of light `299792458.0` (exact). -/
def cVal : ℚ := mkRat 299792458 1

/-- Planck constant literal `6.62607015e-34` (decimal value). -/
def hVal : ℚ := mkRat 662607015 (10 ^ 42)

/-- Gravitational constant literal `6.67430e-11` (decimal value). -/
def GVal : ℚ := mkRat 667430 (10 ^ 16)

/-- Avogadro literal `6.02214076e23` (decimal value). -/
def NaVal : ℚ := mkRat (602214076 * 10 ^ 15) 1

/-- Boltzmann literal `1.380649e-23` (decimal value). -/
def kVal : ℚ := mkRat 1380649 (10 ^ 29)

/-- `function_map` from src/nmri.c, in source order (note the alias
`ln` → `FUNC_LOG`). -/
def lookupFunc : String → Option Fn
  | "sin" => some .sin
  | "cos" => some .cos
  | "tan" => some .tan
  | "asin" => some .asin
  | "acos" => some .acos
  | "atan" => some .atan
  | "log" => some .log
  | "ln" => some .log
  | "sqrt" => some .sqrt
  | "exp" => some .exp
  | "abs" => some .abs
  | "floor" => some .floor
  | "ceil" => some .ceil
  | "round" => some .round
  | _ => none

/-- Identifier resolution of `tokenize` (after the assignment lookahead):
constants in source order, then the function map, then the variable store,
and otherwise the "Unknown identifier" error.  `ans` resolves to the
`last_result` global. -/
def resolveIdent (st : CalcState) (name : String) : Except LexErr Token :=
  if name == "pi" then .ok (.num (.fin piVal) false)
  else if name == "e" then .ok (.num (.fin eVal) false)
  else if name == "phi" then .ok (.num (.fin phiVal) false)
  else if name == "gamma" then .ok (.num (.fin gammaVal) false)
  else if name == "c" then .ok (.num (.fin cVal) false)
  else if name == "h" then .ok (.num (.fin hVal) false)
  else if name == "G" then .ok (.num (.fin GVal) false)
  else if name == "Na" then .ok (.num (.fin NaVal) false)
  else if name == "k" then .ok (.num (.fin kVal) false)
  else if name == "inf" then .ok (.num .pinf false)
  else if name == "ans" then .ok (.num st.lastResult false)
  else
    match lookupFunc name with
    | some f => .ok (.fn f)
    | none =>
      match findVariable st.vars name with
      | some v => .ok (.num v false)
      | none => .error (.unknownIdentifier name)

/-- The `expecting_operand` flag after emitting a resolved identifier token:
a number clears it, a function sets it (the function must be followed by an
argument). -/
def expectingAfter : Token → Bool
  | .num _ _ => false
  | _ => true

/-- Numeric value of a digit string (most significant first). -/
def digitsToNat (l : List Char) : ℕ :=
  l.foldl (fun a c => 10 * a + (c.toNat - 48)) 0

/-- Is the first character a digit? (`isdigit(*(p+1))`-style lookahead). -/
def digitStart : List Char → Bool
  | c :: _ => isDigitC c
  | [] => false

/-- Digit run of the exponent part: consume the digits after an (optional)
sign when present, otherwise consume nothing (`strtod` backtracks to
`orig`). -/
def parseExpDigits (sign : ℤ) (r orig : List Char) : ℤ × List Char :=
  if digitStart r then
    (sign * (digitsToNat (r.takeWhile isDigitC) : ℤ), r.dropWhile isDigitC)
  else (0, orig)

/-- Exponent part of `strtod`: `e`/`E`, an optional sign, and at least one
digit; when no digit follows, nothing is consumed (strtod backtracks). -/
def parseExp (cs : List Char) : ℤ × List Char :=
  match cs with
  | c :: s :: r2 =>
    if c == 'e' || c == 'E' then
      if s == '+' then parseExpDigits 1 r2 cs
      else if s == '-' then parseExpDigits (-1) r2 cs
      else parseExpDigits 1 (s :: r2) cs
    else (0, cs)
  | _ => (0, cs)

/-- Fractional part of `strtod`: a dot followed by digits. -/
def parseFrac : List Char → List Char × List Char
  | '.' :: t => (t.takeWhile isDigitC, t.dropWhile isDigitC)
  | r => ([], r)

/-- Value of a parsed decimal: integer digits `ds`, fraction digits `fs`,
exponent `ex`. -/
def pnValue (ds fs : List Char) (ex : ℤ) : ℚ :=
  let mantissa : ℕ := digitsToNat ds * 10 ^ fs.length + digitsToNat fs
  let scale : ℤ := ex - fs.length
  if 0 ≤ scale then qint ((mantissa * 10 ^ scale.toNat : ℕ) : ℤ)
  else qmk (mantissa : ℤ) ((10 ^ (-scale).toNat : ℕ) : ℤ)

/-- Percent suffix step of the number branch: after `strtod`, a directly
following `%` sets the percentage flag and is consumed. -/
def pnPercent (ds fs : List Char) (ex : ℤ) (r3 : List Char) : ℚ × Bool × List Char :=
  match r3 with
  | '%' :: t => (pnValue ds fs ex, true, t)
  | _ => (pnValue ds fs ex, false, r3)

/-- The number branch of `tokenize`: `strtod` (decimal and scientific forms;
the hexadecimal/inf/nan forms of `strtod` are unreachable from the guarding
`isdigit`/dot test and are not modelled) followed by the `%` suffix test. -/
def parseNumber (cs : List Char) : ℚ × Bool × List Char :=
  pnPercent (cs.takeWhile isDigitC) (parseFrac (cs.dropWhile isDigitC)).1
    (parseExp (parseFrac (cs.dropWhile isDigitC)).2).1
    (parseExp (parseFrac (cs.dropWhile isDigitC)).2).2

theorem dropWhile_length_le {α} (p : α → Bool) :
    ∀ l : List α, (l.dropWhile p).length ≤ l.length
  | [] => le_refl _
  | x :: xs => by
      rw [List.dropWhile_cons]
      split
      · exact le_trans (dropWhile_length_le p xs) (Nat.le_succ _)
      · exact le_refl _

theorem parseExpDigits_length (sign : ℤ) (r orig : List Char) :
    (parseExpDigits sign r orig).2.length ≤ max r.length orig.length := by
  unfold parseExpDigits
  split
  · exact le_trans (dropWhile_length_le isDigitC r) (le_max_left _ _)
  · exact le_max_right _ _

theorem parseExp_length (cs : List Char) : (parseExp cs).2.length ≤ cs.length := by
  rcases cs with _ | ⟨c, _ | ⟨s, r2⟩⟩
  · exact Nat.le_refl _
  · exact Nat.le_refl _
  · show (parseExp (c :: s :: r2)).2.length ≤ r2.length + 1 + 1
    simp only [parseExp]
    have h1 := parseExpDigits_length 1 r2 (c :: s :: r2)
    have h2 := parseExpDigits_length (-1) r2 (c :: s :: r2)
    have h3 := parseExpDigits_length 1 (s :: r2) (c :: s :: r2)
    simp only [List.length_cons] at h1 h2 h3
    split_ifs <;> (try simp) <;> (try omega)

theorem parseFrac_length (l : List Char) : (parseFrac l).2.length ≤ l.length := by
  unfold parseFrac
  split
  · rename_i t
    simpa using le_trans (dropWhile_length_le isDigitC t) (Nat.le_succ _)
  · exact Nat.le_refl _

theorem pnPercent_length (ds fs : List Char) (ex : ℤ) (r3 : List Char) :
    (pnPercent ds fs ex r3).2.2.length ≤ r3.length := by
  unfold pnPercent
  split
  · rename_i t
    simp
  · exact Nat.le_refl _

theorem parseNumber_length (cs : List Char) :
    (parseNumber cs).2.2.length ≤ cs.length := by
  unfold parseNumber
  have h1 := dropWhile_length_le isDigitC cs
  have h2 := parseFrac_length (cs.dropWhile isDigitC)
  have h3 := parseExp_length (parseFrac (cs.dropWhile isDigitC)).2
  have h4 := pnPercent_length (cs.takeWhile isDigitC) (parseFrac (cs.dropWhile isDigitC)).1
    (parseExp (parseFrac (cs.dropWhile isDigitC)).2).1
    (parseExp (parseFrac (cs.dropWhile isDigitC)).2).2
  omega

theorem parseNumber_length_lt (c : Char) (rest : List Char) (h : isDigitC c = true) :
    (parseNumber (c :: rest)).2.2.length ≤ rest.length := by
  have h1 : (c :: rest).dropWhile isDigitC = rest.dropWhile isDigitC :=
    List.dropWhile_cons_of_pos h
  unfold parseNumber
  rw [h1]
  have h2 := dropWhile_length_le isDigitC rest
  have h3 := parseFrac_length (rest.dropWhile isDigitC)
  have h4 := parseExp_length (parseFrac (rest.dropWhile isDigitC)).2
  have h5 := pnPercent_length ((c :: rest).takeWhile isDigitC)
    (parseFrac (rest.dropWhile isDigitC)).1
    (parseExp (parseFrac (rest.dropWhile isDigitC)).2).1
    (parseExp (parseFrac (rest.dropWhile isDigitC)).2).2
  omega

theorem parseNumber_length_dot (rest : List Char) :
    (parseNumber ('.' :: rest)).2.2.length ≤ rest.length := by
  unfold parseNumber
  have h1 : ('.' :: rest).dropWhile isDigitC = '.' :: rest :=
    List.dropWhile_cons_of_neg (by decide)
  rw [h1]
  have h2 : (parseFrac ('.' :: rest)).2 = rest.dropWhile isDigitC := rfl
  rw [h2]
  have h3 := dropWhile_length_le isDigitC rest
  have h4 := parseExp_length (rest.dropWhile isDigitC)
  have h5 := pnPercent_length (('.' :: rest).takeWhile isDigitC)
    (parseFrac ('.' :: rest)).1
    (parseExp (rest.dropWhile isDigitC)).1
    (parseExp (rest.dropWhile isDigitC)).2
  omega

theorem tk_dec_ident (rest : List Char) :
    (rest.dropWhile isIdentChar).length < rest.length + 1 :=
  Nat.lt_succ_of_le (dropWhile_length_le _ _)

theorem tk_dec_assign (rest : List Char) :
    ((rest.dropWhile isIdentChar).dropWhile isSpaceC).tail.length < rest.length + 1 := by
  have h1 := dropWhile_length_le isIdentChar rest
  have h2 := dropWhile_length_le isSpaceC (rest.dropWhile isIdentChar)
  have h3 : (((rest.dropWhile isIdentChar).dropWhile isSpaceC).tail).length
      = ((rest.dropWhile isIdentChar).dropWhile isSpaceC).length - 1 := List.length_tail _
  omega

theorem tk_dec_num (c : Char) (rest : List Char)
    (h : (isDigitC c || (c == '.' && digitStart rest)) = true) :
    (parseNumber (c :: rest)).2.2.length < rest.length + 1 := by
  by_cases hd : isDigitC c = true
  · exact Nat.lt_succ_of_le (parseNumber_length_lt c rest hd)
  · have hc : c = '.' := by
      simp [hd] at h
      exact h.1
    subst hc
    exact Nat.lt_succ_of_le (parseNumber_length_dot rest)

/-- The main loop of `tokenize` from src/nmri.c, one branch per branch of
the C `while` loop: skip whitespace; enforce the token-count ceiling;
identifiers (with the `=` lookahead producing an assignment token, then
constant/function/variable resolution); numeric literals with the `%`
suffix; operators, with `+`/`-` in operand position expanded to a synthetic
`0` followed by the binary operator; parentheses; anything else is an
invalid character.  `expecting` is `expecting_operand`, `count` is
`token_count`. -/
def tokenizeAux (st : CalcState) (cs : List Char) (expecting : Bool) (count : ℕ) :
    Except LexErr (List Token) :=
  match cs with
  | [] => .ok []
  | c :: rest =>
    if isSpaceC c then tokenizeAux st rest expecting count
    else if maxTokens ≤ count then .error .tooComplex
    else if isIdentStart c then
      if maxIdentifierLen ≤ (String.mk (c :: rest.takeWhile isIdentChar)).length then
        .error (.identifierTooLong (String.mk (c :: rest.takeWhile isIdentChar)))
      else if ((rest.dropWhile isIdentChar).dropWhile isSpaceC).headD ' ' == '=' then
        (tokenizeAux st ((rest.dropWhile isIdentChar).dropWhile isSpaceC).tail true
            (count + 1)).map
          (fun ts => Token.assign (String.mk (c :: rest.takeWhile isIdentChar)) :: ts)
      else
        match resolveIdent st (String.mk (c :: rest.takeWhile isIdentChar)) with
        | .error e => .error e
        | .ok tok =>
          (tokenizeAux st (rest.dropWhile isIdentChar) (expectingAfter tok) (count + 1)).map
            (fun ts => tok :: ts)
    else if isDigitC c || (c == '.' && digitStart rest) then
      (tokenizeAux st (parseNumber (c :: rest)).2.2 false (count + 1)).map
        (fun ts =>
          Token.num (.fin (parseNumber (c :: rest)).1) (parseNumber (c :: rest)).2.1 :: ts)
    else if isOpChar c then
      if (c == '+' || c == '-') && expecting then
        if maxTokens ≤ count + 1 then .error .tooComplex
        else
          (tokenizeAux st rest true (count + 2)).map
            (fun ts => Token.num (.fin 0) false :: Token.op (charToOp c) :: ts)
      else
        (tokenizeAux st rest true (count + 1)).map (fun ts => Token.op (charToOp c) :: ts)
    else if c == '(' then
      (tokenizeAux st rest true (count + 1)).map (fun ts => Token.lparen :: ts)
    else if c == ')' then
      (tokenizeAux st rest false (count + 1)).map (fun ts => Token.rparen :: ts)
    else .error (.invalidChar c)
termination_by cs.length
decreasing_by
  all_goals simp only [List.length_cons]
  all_goals first
    | omega
    | exact tk_dec_assign rest
    | exact tk_dec_ident rest
    | exact tk_dec_num c rest (by assumption)

/-- `tokenize` from src/nmri.c: the initial state of the loop
(`expecting_operand = 1`, `token_count = 0`). -/
def tokenize (st : CalcState) (input : String) : Except LexErr (List Token) :=
  tokenizeAux st input.toList true 0

/-- Structurally recursive copy of `tokenizeAux` driven by a fuel counter,
used only as a kernel-reducible evaluation vehicle for concrete inputs
(`tokenizeAux` itself is defined by well-founded recursion, which the
kernel cannot evaluate).  Every loop step consumes at least one character,
so any fuel of at least `cs.length` never reaches the exhaustion branch;
`tokenizeFuel_eq` proves the two functions agree for such fuel. -/
def tokenizeFuel (st : CalcState) : ℕ → List Char → Bool → ℕ →
    Except LexErr (List Token)
  | _, [], _, _ => .ok []
  | 0, _ :: _, _, _ => .error .tooComplex
  | fuel + 1, c :: rest, expecting, count =>
    if isSpaceC c then tokenizeFuel st fuel rest expecting count
    else if maxTokens ≤ count then .error .tooComplex
    else if isIdentStart c then
      if maxIdentifierLen ≤ (String.mk (c :: rest.takeWhile isIdentChar)).length then
        .error (.identifierTooLong (String.mk (c :: rest.takeWhile isIdentChar)))
      else if ((rest.dropWhile isIdentChar).dropWhile isSpaceC).headD ' ' == '=' then
        (tokenizeFuel st fuel ((rest.dropWhile isIdentChar).dropWhile isSpaceC).tail true
            (count + 1)).map
          (fun ts => Token.assign (String.mk (c :: rest.takeWhile isIdentChar)) :: ts)
      else
        match resolveIdent st (String.mk (c :: rest.takeWhile isIdentChar)) with
        | .error e => .error e
        | .ok tok =>
          (tokenizeFuel st fuel (rest.dropWhile isIdentChar) (expectingAfter tok)
              (count + 1)).map
            (fun ts => tok :: ts)
    else if isDigitC c || (c == '.' && digitStart rest) then
      (tokenizeFuel st fuel (parseNumber (c :: rest)).2.2 false (count + 1)).map
        (fun ts =>
          Token.num (.fin (parseNumber (c :: rest)).1) (parseNumber (c :: rest)).2.1 :: ts)
    else if isOpChar c then
      if (c == '+' || c == '-') && expecting then
        if maxTokens ≤ count + 1 then .error .tooComplex
        else
          (tokenizeFuel st fuel rest true (count + 2)).map
            (fun ts => Token.num (.fin 0) false :: Token.op (charToOp c) :: ts)
      else
        (tokenizeFuel st fuel rest true (count + 1)).map (fun ts => Token.op (charToOp c) :: ts)
    else if c == '(' then
      (tokenizeFuel st fuel rest true (count + 1)).map (fun ts => Token.lparen :: ts)
    else if c == ')' then
      (tokenizeFuel st fuel rest false (count + 1)).map (fun ts => Token.rparen :: ts)
    else .error (.invalidChar c)

theorem tokenizeFuel_eq (st : CalcState) :
    ∀ (fuel : ℕ) (cs : List Char) (expecting : Bool) (count : ℕ),
      cs.length ≤ fuel →
      tokenizeFuel st fuel cs expecting count = tokenizeAux st cs expecting count := by
  intro fuel
  induction fuel with
  | zero =>
    intro cs expecting count h
    match cs with
    | [] => rw [tokenizeAux]; rfl
    | c :: rest => simp at h
  | succ f ih =>
    intro cs expecting count h
    match cs with
    | [] => rw [tokenizeAux]; rfl
    | c :: rest =>
      have hlen : rest.length ≤ f := by
        simp only [List.length_cons] at h
        omega
      have hA : ((rest.dropWhile isIdentChar).dropWhile isSpaceC).tail.length ≤ f := by
        have := tk_dec_assign rest
        omega
      have hI : (rest.dropWhile isIdentChar).length ≤ f := by
        have := tk_dec_ident rest
        omega
      rw [tokenizeAux]
      simp only [tokenizeFuel]
      split_ifs <;>
        first
          | rfl
          | exact ih rest _ _ hlen
          | exact congrArg _ (ih _ _ _ hA)
          | exact congrArg _ (ih _ _ _ hI)
          | exact congrArg _ (ih _ _ _ hlen)
          | exact congrArg _ (ih _ _ _
              (by have := tk_dec_num c rest (by assumption); omega))
          | (cases resolveIdent st (String.mk (c :: rest.takeWhile isIdentChar)) with
              | error e => rfl
              | ok tok =>
                  exact congrArg (Except.map fun ts => tok :: ts)
                    (ih (rest.dropWhile isIdentChar) (expectingAfter tok) (count + 1) hI))

/-- `tokenize` computed through the fuel vehicle (for `decide`-style
evaluation on concrete inputs). -/
theorem tokenize_eq_fuel (st : CalcState) (input : String) :
    tokenize st input = tokenizeFuel st input.toList.length input.toList true 0 :=
  (tokenizeFuel_eq st input.toList.length input.toList true 0 (le_refl _)).symm

/-! ### The infix-to-postfix converter (`shunting_yard` from src/nmri.c) -/

/-- `precedence` from src/nmri.c. -/
def precedence : Op → ℕ
  | .add => 1
  | .sub => 1
  | .mul => 2
  | .div => 2
  | .mod => 2
  | .pow => 3

/-- `is_left_associative` from src/nmri.c: every operator except power. -/
def is_left_associative : Op → Bool
  | .pow => false
  | _ => true

/-- The pop condition of the operator case of `shunting_yard`: pop while the
stack top is an operator of higher precedence, or of equal precedence when
the incoming operator is left-associative. -/
def shouldPop (cur top : Op) : Bool :=
  (is_left_associative cur && decide (precedence cur ≤ precedence top)) ||
  (!is_left_associative cur && decide (precedence cur < precedence top))

/-- The operator-case pop loop: returns the popped operators (in pop order)
and the remaining stack.  Stops at anything that is not an operator
(functions and parentheses stay). -/
def popHigher (cur : Op) : List Token → List Token × List Token
  | [] => ([], [])
  | .op o :: rest =>
      if shouldPop cur o then
        ((Token.op o) :: (popHigher cur rest).1, (popHigher cur rest).2)
      else ([], .op o :: rest)
  | t :: rest => ([], t :: rest)

/-- The right-parenthesis pop loop: pop to the output until a left
parenthesis; `none` when the stack runs out (mismatched parentheses).
Returns the popped tokens (in pop order) and the stack after discarding the
left parenthesis. -/
def popToParen : List Token → Option (List Token × List Token)
  | [] => none
  | .lparen :: rest => some ([], rest)
  | t :: rest => (popToParen rest).map (fun pr => (t :: pr.1, pr.2))

/-- Converter errors (the distinct `return -1` sites of `shunting_yard`).
`TOKEN_VARIABLE` cannot occur in our token type, so its internal-error site
has no counterpart. -/
inductive ParseErr where
  | outputOverflow
  | stackOverflow
  | mismatchedParen
  | internalAssignment
deriving DecidableEq, Repr

/-- The main loop of `shunting_yard`, followed by the final drain
(`syDrain`).  The output-queue and operator-stack bounds reproduce the C
checks: a push onto a full queue/stack (100 entries) fails.  A run of `k`
consecutive pops to the output fails exactly when the queue would exceed the
bound at some intermediate push, i.e. when `output.length + k > 100`. -/
def syDrain : List Token → List Token → Except ParseErr (List Token)
  | [], output => .ok output
  | .lparen :: _, _ => .error .mismatchedParen
  | t :: rest, output =>
      if maxTokens ≤ output.length then .error .outputOverflow
      else syDrain rest (output ++ [t])

def syLoop : List Token → List Token → List Token → Except ParseErr (List Token)
  | [], opStack, output => syDrain opStack output
  | t :: ts, opStack, output =>
    match t with
    | .num v p =>
        if maxTokens ≤ output.length then .error .outputOverflow
        else syLoop ts opStack (output ++ [Token.num v p])
    | .fn f =>
        if maxTokens ≤ opStack.length then .error .stackOverflow
        else syLoop ts (Token.fn f :: opStack) output
    | .op o =>
        if maxTokens < output.length + (popHigher o opStack).1.length then
          .error .outputOverflow
        else if maxTokens ≤ (popHigher o opStack).2.length then .error .stackOverflow
        else syLoop ts (Token.op o :: (popHigher o opStack).2)
          (output ++ (popHigher o opStack).1)
    | .lparen =>
        if maxTokens ≤ opStack.length then .error .stackOverflow
        else syLoop ts (Token.lparen :: opStack) output
    | .rparen =>
        match popToParen opStack with
        | none => .error .mismatchedParen
        | some pr =>
          if maxTokens < output.length + pr.1.length then .error .outputOverflow
          else
            match pr.2 with
            | .fn f :: rest2 =>
                if maxTokens ≤ output.length + pr.1.length then .error .outputOverflow
                else syLoop ts rest2 (output ++ pr.1 ++ [Token.fn f])
            | _ => syLoop ts pr.2 (output ++ pr.1)
    | .assign _ => .error .internalAssignment

/-- `shunting_yard` from src/nmri.c: empty operator stack and output
queue. -/
def shunting_yard (tokens : List Token) : Except ParseErr (List Token) :=
  syLoop tokens [] []

/-! ### The postfix evaluator (`evaluate_postfix` from src/nmri.c) -/

/-- `Value` from src/nmri.c: a number plus its transient percentage tag. -/
structure Value where
  num : D
  pct : Bool
deriving DecidableEq, Repr

/-- Evaluator errors (the distinct `return NAN` sites of
`evaluate_postfix`). -/
inductive EvalErr where
  | stackOverflow
  | insufficientOperands
  | insufficientArguments
  | divByZero
  | modByZero
  | domainError
  | malformedExpression
deriving DecidableEq, Repr

/-- Percentage normalization `v.is_percentage ? v.num / 100.0 : v.num` (used
by `*`, `/`, every function argument, and the final bare-percent
resolution). -/
def normPct (v : Value) : D := if v.pct then ddiv v.num (.fin 100) else v.num

/-- The operator case of `evaluate_postfix`: `a` is the left operand (popped
second), `b` the right.  `+`/`-` treat a percentage-tagged `b` as a percent
of `a`; `*`/`/` normalize both sides; `/` fails on a zero (normalized)
divisor; `^` ignores the tags (the C code prints a warning and proceeds);
`%` fails on a zero raw right operand and ignores the tags. -/
def applyOp (ops : RealOps) (o : Op) (a b : Value) : Except EvalErr D :=
  match o with
  | .add =>
      .ok (if b.pct then dadd a.num (dmul (ddiv b.num (.fin 100)) a.num)
           else dadd a.num b.num)
  | .sub =>
      .ok (if b.pct then dsub a.num (dmul (ddiv b.num (.fin 100)) a.num)
           else dsub a.num b.num)
  | .mul => .ok (dmul (normPct a) (normPct b))
  | .div =>
      if deqZero (normPct b) then .error .divByZero
      else .ok (ddiv (normPct a) (normPct b))
  | .pow => .ok (dpow ops a.num b.num)
  | .mod =>
      if deqZero b.num then .error .modByZero
      else .ok (dfmod a.num b.num)

/-- The function case of `evaluate_postfix`: normalize the percentage tag,
run the domain checks of the C `switch`, and apply the function.  The
comparisons are IEEE comparisons (false on NaN), exactly as in C. -/
def applyFn (ops : RealOps) (f : Fn) (v : Value) : Except EvalErr D :=
  match f with
  | .sin => .ok (ops.sin (normPct v))
  | .cos => .ok (ops.cos (normPct v))
  | .tan => .ok (ops.tan (normPct v))
  | .asin =>
      if dlt (normPct v) (.fin (qint (-1))) || dlt (.fin 1) (normPct v) then
        .error .domainError
      else .ok (ops.asin (normPct v))
  | .acos =>
      if dlt (normPct v) (.fin (qint (-1))) || dlt (.fin 1) (normPct v) then
        .error .domainError
      else .ok (ops.acos (normPct v))
  | .atan => .ok (ops.atan (normPct v))
  | .log =>
      if dle (normPct v) (.fin 0) then .error .domainError
      else .ok (ops.log (normPct v))
  | .sqrt =>
      if dlt (normPct v) (.fin 0) then .error .domainError
      else .ok (ops.sqrt (normPct v))
  | .exp => .ok (ops.exp (normPct v))
  | .abs => .ok (dabs (normPct v))
  | .floor => .ok (dfloor (normPct v))
  | .ceil => .ok (dceil (normPct v))
  | .round => .ok (dround (normPct v))

/-- The main loop of `evaluate_postfix` over a stack of `Value`s (head =
top).  Parenthesis/assignment tokens in the postfix sequence are skipped,
exactly as in the C `for` loop (its `if`/`else if` chain has no final
`else`).  At the end exactly one value must remain; a leftover percentage
tag resolves to `num/100`. -/
def evalLoop (ops : RealOps) : List Token → List Value → Except EvalErr D
  | [], [v] => .ok (normPct v)
  | [], _ => .error .malformedExpression
  | t :: rest, stack =>
    match t with
    | .num v p =>
        if maxTokens ≤ stack.length then .error .stackOverflow
        else evalLoop ops rest (⟨v, p⟩ :: stack)
    | .op o =>
        match stack with
        | b :: a :: s =>
          match applyOp ops o a b with
          | .error e => .error e
          | .ok r =>
              if maxTokens ≤ s.length then .error .stackOverflow
              else evalLoop ops rest (⟨r, false⟩ :: s)
        | _ => .error .insufficientOperands
    | .fn f =>
        match stack with
        | v :: s =>
          match applyFn ops f v with
          | .error e => .error e
          | .ok r =>
              if maxTokens ≤ s.length then .error .stackOverflow
              else evalLoop ops rest (⟨r, false⟩ :: s)
        | [] => .error .insufficientArguments
    | _ => evalLoop ops rest stack

/-- `evaluate_postfix` from src/nmri.c, with each `return NAN` site mapped
to its distinct error kind. -/
def evaluate_postfix (ops : RealOps) (post : List Token) : Except EvalErr D :=
  evalLoop ops post []

/-! ### The pipeline, `evaluate_expression`, and `handle_assignment` -/

/-- All error kinds of one evaluation cycle, in pipeline order.
`emptyExpression` is the `token_count == 0` early return of
`evaluate_expression`/`handle_assignment`. -/
inductive Err where
  | lex (e : LexErr)
  | emptyExpression
  | parse (e : ParseErr)
  | eval (e : EvalErr)
deriving DecidableEq, Repr

/-- The Converter → Evaluator tail of the pipeline, applied to the lexer's
result. -/
def pipelineFromTokens (ops : RealOps) : Except LexErr (List Token) → Except Err D
  | .error e => .error (.lex e)
  | .ok toks =>
    if toks.isEmpty then .error .emptyExpression
    else
      match shunting_yard toks with
      | .error e => .error (.parse e)
      | .ok post =>
        match evaluate_postfix ops post with
        | .error e => .error (.eval e)
        | .ok v => .ok v

/-- The Lexer → Converter → Evaluator pipeline shared by
`evaluate_expression` and `handle_assignment`, with the error kind of the
failing stage.  A successful result may still be the NaN *value* (e.g.
`inf - inf`): the C functions cannot see the difference, which is exactly
what `collapseD` below captures. -/
def pipelineExcept (ops : RealOps) (st : CalcState) (input : String) : Except Err D :=
  pipelineFromTokens ops (tokenize st input)

/-- The pipeline computed through the fuel tokenizer (for `decide`-style
evaluation on concrete inputs). -/
theorem pipelineExcept_eq_fuel (ops : RealOps) (st : CalcState) (input : String) :
    pipelineExcept ops st input =
      pipelineFromTokens ops
        (tokenizeFuel st input.toList.length input.toList true 0) := by
  rw [pipelineExcept, tokenize_eq_fuel]

/-- Collapse of the pipeline to a single `double`, as the C code does: every
error site returns `NAN`, so a failed pipeline and a computed NaN value are
indistinguishable to the caller. -/
def collapseD : Except Err D → D
  | .error _ => .nan
  | .ok v => v

/-- Commit of a successful result: `last_result = r` and
`set_variable("ans", r)` with the C code ignoring a failure of the latter
(the store cannot be full when `ans` already exists, which `main`
establishes at startup). -/
def commitSuccess (st : CalcState) (r : D) : CalcState :=
  { vars := (setVariable st.vars "ans" r).getD st.vars, lastResult := r }

/-- The state-update half of `evaluate_expression`, as a function of the
pipeline result. -/
def evalFromPipeline : Except Err D → CalcState → D × CalcState
  | .error _, st => (.nan, st)
  | .ok v, st => if v.isNaN then (v, st) else (v, commitSuccess st v)

/-- `evaluate_expression` from src/nmri.c: run the pipeline; on a non-NaN
result update `last_result` and `ans`; on any failure (or a NaN result)
leave the state untouched.  Returns the C function's return value paired
with the state after the call. -/
def evaluate_expression (ops : RealOps) (input : String) (st : CalcState) :
    D × CalcState :=
  evalFromPipeline (pipelineExcept ops st input) st

/-- The variable-commit half of `handle_assignment`, as a function of the
pipeline result: on a non-NaN value, `set_variable(name, v)` (a failure
returns NaN with no other effect), then `last_result` and `ans`. -/
def assignFromPipeline (name : String) : Except Err D → CalcState → D × CalcState
  | .error _, st => (.nan, st)
  | .ok v, st =>
    if v.isNaN then (v, st)
    else
      match setVariable st.vars name v with
      | none => (.nan, st)
      | some vs1 =>
          (v, { vars := (setVariable vs1 "ans" v).getD vs1, lastResult := v })

/-- `handle_assignment` from src/nmri.c.  Returns the C function's return
value paired with the state after the call. -/
def handle_assignment (ops : RealOps) (name expr : String) (st : CalcState) :
    D × CalcState :=
  assignFromPipeline name (pipelineExcept ops st expr) st

/-- `evaluate_expression` computed through the fuel tokenizer. -/
theorem evaluate_expression_eq_fuel (ops : RealOps) (input : String) (st : CalcState) :
    evaluate_expression ops input st =
      evalFromPipeline
        (pipelineFromTokens ops
          (tokenizeFuel st input.toList.length input.toList true 0)) st := by
  rw [evaluate_expression, pipelineExcept_eq_fuel]

/-- `handle_assignment` computed through the fuel tokenizer. -/
theorem handle_assignment_eq_fuel (ops : RealOps) (name expr : String) (st : CalcState) :
    handle_assignment ops name expr st =
      assignFromPipeline name
        (pipelineFromTokens ops
          (tokenizeFuel st expr.toList.length expr.toList true 0)) st := by
  rw [handle_assignment, pipelineExcept_eq_fuel]

/-! ### The interactive caller's assignment detection (from `main`) -/

/-- What `main` does with a (left-trimmed) input line that is not a built-in
command: hand it to `handle_assignment` as `name = expr`, reject it with an
assignment error (invalid/too long/reserved left-hand side), or evaluate it
as an expression. -/
inductive LineAction where
  | assign (name expr : String)
  | rejectName
  | expression
deriving DecidableEq, Repr

/-- The reserved-name check of `main`'s assignment validation.  The C code
checks exactly these five names (its comment calls the list simplified). -/
def reservedNames : List String := ["help", "exit", "pi", "e", "sin"]

/-- `[A-Za-z_][A-Za-z0-9_]*` — the per-character validation loop of
`main`. -/
def validIdentName (l : List Char) : Bool :=
  match l with
  | [] => false
  | c :: t => isIdentStart c && t.all isIdentChar

/-- Trailing-whitespace trim of the left-hand side (the `name_end` loop of
`main`). -/
def dropTrailingSpaces (l : List Char) : List Char :=
  (l.reverse.dropWhile isSpaceC).reverse

/-- The name-validation half of `main`'s assignment branch, given the index
`i` of the first `=`: trim the left-hand side, require
`0 < name_len < MAX_IDENTIFIER_LEN`, a syntactically valid identifier, and
a non-reserved name; on success call `handle_assignment` with everything
after the `=`. -/
def classifyAssign (cs : List Char) (i : ℕ) : LineAction :=
  if 0 < (dropTrailingSpaces (cs.take i)).length ∧
      (dropTrailingSpaces (cs.take i)).length < maxIdentifierLen then
    if validIdentName (dropTrailingSpaces (cs.take i)) &&
        !(reservedNames.contains (String.mk (dropTrailingSpaces (cs.take i)))) then
      .assign (String.mk (dropTrailingSpaces (cs.take i))) (String.mk (cs.drop (i + 1)))
    else .rejectName
  else .rejectName

/-- The `strpbrk` half of the assignment condition: given the index `i` of
the first `=` and the index (if any) of the first operator character, the
line is an assignment candidate iff there is no operator or the `=` comes
first. -/
def classifyWithOp (cs : List Char) (i : ℕ) : Option ℕ → LineAction
  | some j => if i < j then classifyAssign cs i else .expression
  | none => classifyAssign cs i

/-- The assignment-detection logic of `main` (src/nmri.c, the
`strchr`/`strpbrk` block): a line is treated as an assignment iff it
contains `=`, the `=` is not the first character, and the first `=` comes
before the first of `+ - * / ^ %`; the left-hand side must then validate
per `classifyAssign`.  The input is the line after `main`'s leading
whitespace trim, and only lines that `process_command` did not recognize
reach this logic. -/
def classifyLine (line : String) : LineAction :=
  match line.toList.findIdx? (fun c => c == '=') with
  | none => .expression
  | some i =>
    if i = 0 then .expression
    else classifyWithOp line.toList i (line.toList.findIdx? isOpChar)

/-! ### Command-line batch mode (from `main`) -/

/-- `CMD_LINE_EXPR_BUFFER_SIZE` from src/nmri.c. -/
def cmdLineBufferSize : ℕ := 512

/-- Batch mode of `main`: join the arguments with single spaces (an
over-long joined expression exits with code 1 before evaluating), evaluate
once, exit `1` on a NaN result and `0` otherwise. -/
def batchExitCode (ops : RealOps) (args : List String) (st : CalcState) : ℕ :=
  if cmdLineBufferSize ≤ (String.intercalate " " args).length then 1
  else if ((evaluate_expression ops (String.intercalate " " args) st).1).isNaN then 1
  else 0

/-! ### Small bridges between the computable model and Mathlib arithmetic -/

theorem ddiv_fin100 (y : ℚ) : ddiv (.fin y) (.fin 100) = .fin (qdiv y 100) := by
  show (if (100 : ℚ).num = 0 then D.nan else .fin (qdiv y 100)) = .fin (qdiv y 100)
  rw [if_neg (by decide)]

theorem normPct_fin (x : ℚ) (p : Bool) :
    normPct ⟨.fin x, p⟩ = .fin (if p then qdiv x 100 else x) := by
  cases p <;> simp [normPct, ddiv_fin100]

theorem dlt_fin_iff (a b : ℚ) : dlt (.fin a) (.fin b) = true ↔ a < b := by
  unfold dlt
  rw [decide_eq_true_eq]
  exact Rat.lt_def.symm

theorem dle_fin_iff (a b : ℚ) : dle (.fin a) (.fin b) = true ↔ a ≤ b := by
  unfold dle
  rw [decide_eq_true_eq]
  exact Rat.le_def.symm

theorem deqZero_fin_iff (a : ℚ) : deqZero (.fin a) = true ↔ a = 0 := by
  unfold deqZero
  rw [decide_eq_true_eq]
  exact Rat.num_eq_zero

theorem qint_neg_one : qint (-1) = (-1 : ℚ) := by
  rw [qint_eq]
  push_cast
  ring

/-! ### The claims -/

/-- C1: `+` and `-` have precedence 1, `*`, `/` and `%` have precedence 2,
`^` has precedence 3; every operator is left-associative except `^`, which
is right-associative; consequently `evaluate("2^3^2") = 512.0` (the
right-associative reading `2^(3^2)`), `evaluate("2+3*4") = 14.0`, and
`evaluate("(2+3)*4") = 20.0`, for every interpretation of the
transcendental primitives and every calculator state. -/
theorem C1_precedence_associativity :
    (precedence .add = 1 ∧ precedence .sub = 1 ∧ precedence .mul = 2 ∧
      precedence .div = 2 ∧ precedence .mod = 2 ∧ precedence .pow = 3) ∧
    (∀ o : Op, is_left_associative o = true ↔ o ≠ .pow) ∧
    (∀ (ops : RealOps) (st : CalcState),
      (evaluate_expression ops "2^3^2" st).1 = .fin 512 ∧
      (evaluate_expression ops "2+3*4" st).1 = .fin 14 ∧
      (evaluate_expression ops "(2+3)*4" st).1 = .fin 20) := by
  refine ⟨by decide, ?_, ?_⟩
  · intro o
    cases o <;> simp [is_left_associative]
  · intro ops st
    refine ⟨?_, ?_, ?_⟩ <;> (rw [evaluate_expression_eq_fuel]; rfl)

theorem ddiv_fin_of_ne (a b : ℚ) (hb : b ≠ 0) : ddiv (.fin a) (.fin b) = .fin (a / b) := by
  show (if b.num = 0 then D.nan else .fin (qdiv a b)) = _
  rw [if_neg (by simpa [Rat.num_ne_zero] using hb), qdiv_eq]

/-- C2: percentage semantics of the postfix evaluator.  For `+`/`-` a
percentage-tagged right operand `y` acts as a percent of the left operand
`x` (giving `x ± (y/100)*x`); for `*`/`/` each percentage-tagged operand is
first replaced by its value over 100; a bare percentage literal left
unconsumed at the end of evaluation resolves to its value over 100.  Hence
`evaluate("100 - 20%") = 80.0`, `evaluate("100 * 20%") = 20.0`, and
`evaluate("20%") = 0.20 = 1/5`. -/
theorem C2_percentage_semantics :
    (∀ (ops : RealOps) (x y : ℚ) (pa : Bool),
      applyOp ops .add ⟨.fin x, pa⟩ ⟨.fin y, true⟩ = .ok (.fin (x + y / 100 * x)) ∧
      applyOp ops .sub ⟨.fin x, pa⟩ ⟨.fin y, true⟩ = .ok (.fin (x - y / 100 * x))) ∧
    (∀ (ops : RealOps) (x y : ℚ) (pa pb : Bool),
      applyOp ops .mul ⟨.fin x, pa⟩ ⟨.fin y, pb⟩ =
        .ok (.fin ((if pa then x / 100 else x) * (if pb then y / 100 else y)))) ∧
    (∀ (ops : RealOps) (x y : ℚ) (pa pb : Bool),
      (if pb then y / 100 else y) ≠ 0 →
      applyOp ops .div ⟨.fin x, pa⟩ ⟨.fin y, pb⟩ =
        .ok (.fin ((if pa then x / 100 else x) / (if pb then y / 100 else y)))) ∧
    (∀ (ops : RealOps) (x : ℚ),
      evaluate_postfix ops [.num (.fin x) true] = .ok (.fin (x / 100))) ∧
    (∀ (ops : RealOps) (st : CalcState),
      (evaluate_expression ops "100 - 20%" st).1 = .fin 80 ∧
      (evaluate_expression ops "100 * 20%" st).1 = .fin 20 ∧
      (evaluate_expression ops "20%" st).1 = .fin (1 / 5)) := by
  refine ⟨?_, ?_, ?_, ?_, ?_⟩
  · intro ops x y pa
    constructor
    · show Except.ok (D.fin (qadd x (qmul (qdiv y 100) x))) = _
      rw [qdiv_eq, qmul_eq, qadd_eq]
    · show Except.ok (D.fin (qadd x (qneg (qmul (qdiv y 100) x)))) = _
      rw [qdiv_eq, qmul_eq, qneg_eq, qadd_eq]
      congr 2
      ring
  · intro ops x y pa pb
    have ha := normPct_fin x pa
    have hb := normPct_fin y pb
    show Except.ok (dmul (normPct ⟨.fin x, pa⟩) (normPct ⟨.fin y, pb⟩)) = _
    rw [ha, hb]
    show Except.ok (D.fin (qmul (if pa then qdiv x 100 else x) (if pb then qdiv y 100 else y))) = _
    rw [qmul_eq]
    simp only [qdiv_eq]
  · intro ops x y pa pb hy
    have ha := normPct_fin x pa
    have hb := normPct_fin y pb
    have hyq : (if pb then qdiv y 100 else y) ≠ 0 := by
      cases pb <;> simpa [qdiv_eq] using hy
    show (if deqZero (normPct ⟨.fin y, pb⟩) = true then Except.error EvalErr.divByZero
          else .ok (ddiv (normPct ⟨.fin x, pa⟩) (normPct ⟨.fin y, pb⟩))) = _
    rw [ha, hb, if_neg (by rw [deqZero_fin_iff]; exact hyq),
      ddiv_fin_of_ne _ _ hyq]
    simp only [qdiv_eq]
  · intro ops x
    show Except.ok (normPct ⟨.fin x, true⟩) = _
    rw [normPct_fin]
    simp [qdiv_eq]
  · intro ops st
    refine ⟨?_, ?_, ?_⟩
    · rw [evaluate_expression_eq_fuel]; rfl
    · rw [evaluate_expression_eq_fuel]; rfl
    · have h : (evaluate_expression ops "20%" st).1 = .fin (mkRat 1 5) := by
        rw [evaluate_expression_eq_fuel]; rfl
      rw [h]
      congr 1
      rw [Rat.mkRat_eq_div]
      norm_num

/-- Witness for C2 (division conjunct, applied at `100 / 20%`). -/
theorem C2_percentage_semantics_witness :
    (if true then (20 : ℚ) / 100 else 20) ≠ 0 ∧
    applyOp dummyOps .div ⟨.fin 100, false⟩ ⟨.fin 20, true⟩ =
      .ok (.fin ((if false then (100 : ℚ) / 100 else 100) /
        (if true then (20 : ℚ) / 100 else 20))) :=
  ⟨by norm_num,
   C2_percentage_semantics.2.2.1 dummyOps 100 20 false true (by norm_num)⟩

/-- C3: failed cycles are atomic.  Whenever a call of `evaluate_expression`
or `handle_assignment` reports failure (a NaN return value, the C error
sentinel), the calculator state — `last_result`, the `ans` binding, and the
whole variable store — is exactly what it was before the call. -/
theorem C3_failed_cycles_atomic :
    ∀ (ops : RealOps) (input name : String) (st : CalcState),
      ((evaluate_expression ops input st).1.isNaN = true →
        (evaluate_expression ops input st).2 = st) ∧
      ((handle_assignment ops name input st).1.isNaN = true →
        (handle_assignment ops name input st).2 = st) := by
  intro ops input name st
  constructor
  · intro h
    rw [evaluate_expression] at h ⊢
    cases hp : pipelineExcept ops st input with
    | error e => rfl
    | ok v =>
      rw [hp] at h
      by_cases hv : v.isNaN = true
      · show (if v.isNaN then ((v, st) : D × CalcState) else (v, commitSuccess st v)).2 = st
        rw [if_pos hv]
      · exfalso
        have h1 : (evalFromPipeline (.ok v) st).1 = v := by
          show (if v.isNaN then ((v, st) : D × CalcState) else (v, commitSuccess st v)).1 = v
          rw [if_neg hv]
        rw [h1] at h
        exact hv h
  · intro h
    rw [handle_assignment] at h ⊢
    cases hp : pipelineExcept ops st input with
    | error e => rfl
    | ok v =>
      rw [hp] at h
      by_cases hv : v.isNaN = true
      · show (if v.isNaN then ((v, st) : D × CalcState) else _).2 = st
        rw [if_pos hv]
      · have h1 : assignFromPipeline name (.ok v) st =
            (match setVariable st.vars name v with
             | none => ((.nan, st) : D × CalcState)
             | some vs1 =>
                 (v, { vars := (setVariable vs1 "ans" v).getD vs1, lastResult := v })) := by
          show (if v.isNaN then ((v, st) : D × CalcState) else _) = _
          rw [if_neg hv]
        rw [h1] at h ⊢
        cases hs : setVariable st.vars name v with
        | none => rfl
        | some vs1 =>
          rw [hs] at h
          exact absurd h hv

/-- Witness for C3: the failing input `1/0` leaves the startup state
untouched under both entry points. -/
theorem C3_failed_cycles_atomic_witness :
    (evaluate_expression dummyOps "1/0" initState).1.isNaN = true ∧
    (evaluate_expression dummyOps "1/0" initState).2 = initState ∧
    (handle_assignment dummyOps "x" "1/0" initState).1.isNaN = true ∧
    (handle_assignment dummyOps "x" "1/0" initState).2 = initState := by
  refine ⟨by rw [evaluate_expression_eq_fuel]; rfl, ?_,
    by rw [handle_assignment_eq_fuel]; rfl, ?_⟩
  · exact (C3_failed_cycles_atomic dummyOps "1/0" "x" initState).1
      (by rw [evaluate_expression_eq_fuel]; rfl)
  · exact (C3_failed_cycles_atomic dummyOps "1/0" "x" initState).2
      (by rw [handle_assignment_eq_fuel]; rfl)

/-- C4: `Div` with a zero divisor (after percentage normalization) always
fails with the `DivByZero` error kind, and `Mod` with a zero right operand
always fails with the `ModByZero` error kind; neither can return a success
value (an infinity or NaN) in those situations.  Concretely, `1/0` and
`5 % 0` fail with exactly those kinds. -/
theorem C4_div_mod_by_zero :
    (∀ (ops : RealOps) (a b : Value),
      deqZero (normPct b) = true → applyOp ops .div a b = .error .divByZero) ∧
    (∀ (ops : RealOps) (a b : Value) (r : D),
      applyOp ops .div a b = .ok r → deqZero (normPct b) = false) ∧
    (∀ (ops : RealOps) (a b : Value),
      deqZero b.num = true → applyOp ops .mod a b = .error .modByZero) ∧
    (∀ (ops : RealOps) (a b : Value) (r : D),
      applyOp ops .mod a b = .ok r → deqZero b.num = false) ∧
    (∀ (ops : RealOps) (st : CalcState),
      pipelineExcept ops st "1/0" = .error (.eval .divByZero) ∧
      pipelineExcept ops st "5 % 0" = .error (.eval .modByZero)) := by
  refine ⟨?_, ?_, ?_, ?_, ?_⟩
  · intro ops a b h
    show (if deqZero (normPct b) = true then Except.error EvalErr.divByZero
          else Except.ok (ddiv (normPct a) (normPct b))) = _
    rw [if_pos h]
  · intro ops a b r h
    cases hd : deqZero (normPct b) with
    | false => rfl
    | true =>
      exfalso
      have herr : applyOp ops .div a b = .error .divByZero := by
        show (if deqZero (normPct b) = true then Except.error EvalErr.divByZero
              else Except.ok (ddiv (normPct a) (normPct b))) = _
        rw [if_pos hd]
      rw [herr] at h
      exact Except.noConfusion h
  · intro ops a b h
    show (if deqZero b.num = true then Except.error EvalErr.modByZero
          else Except.ok (dfmod a.num b.num)) = _
    rw [if_pos h]
  · intro ops a b r h
    cases hd : deqZero b.num with
    | false => rfl
    | true =>
      exfalso
      have herr : applyOp ops .mod a b = .error .modByZero := by
        show (if deqZero b.num = true then Except.error EvalErr.modByZero
              else Except.ok (dfmod a.num b.num)) = _
        rw [if_pos hd]
      rw [herr] at h
      exact Except.noConfusion h
  · intro ops st
    constructor
    · rw [pipelineExcept_eq_fuel]; rfl
    · rw [pipelineExcept_eq_fuel]; rfl

/-- Witness for C4 at concrete operands: `1/0` errors, `6/2` succeeds (its
divisor is nonzero), `5 mod 0` errors, `17 mod 5` succeeds. -/
theorem C4_div_mod_by_zero_witness :
    (deqZero (normPct ⟨.fin 0, false⟩) = true ∧
      applyOp dummyOps .div ⟨.fin 1, false⟩ ⟨.fin 0, false⟩ = .error .divByZero) ∧
    (applyOp dummyOps .div ⟨.fin 6, false⟩ ⟨.fin 2, false⟩ = .ok (.fin 3) ∧
      deqZero (normPct ⟨.fin 2, false⟩) = false) ∧
    (deqZero ((⟨.fin 0, false⟩ : Value).num) = true ∧
      applyOp dummyOps .mod ⟨.fin 5, false⟩ ⟨.fin 0, false⟩ = .error .modByZero) ∧
    (applyOp dummyOps .mod ⟨.fin 17, false⟩ ⟨.fin 5, false⟩ = .ok (.fin 2) ∧
      deqZero ((⟨.fin 5, false⟩ : Value).num) = false) := by
  refine ⟨⟨by decide, ?_⟩, ⟨by decide, ?_⟩, ⟨by decide, ?_⟩, ⟨by decide, ?_⟩⟩
  · exact C4_div_mod_by_zero.1 dummyOps ⟨.fin 1, false⟩ ⟨.fin 0, false⟩ (by decide)
  · exact C4_div_mod_by_zero.2.1 dummyOps ⟨.fin 6, false⟩ ⟨.fin 2, false⟩ (.fin 3) (by decide)
  · exact C4_div_mod_by_zero.2.2.1 dummyOps ⟨.fin 5, false⟩ ⟨.fin 0, false⟩ (by decide)
  · exact C4_div_mod_by_zero.2.2.2.1 dummyOps ⟨.fin 17, false⟩ ⟨.fin 5, false⟩ (.fin 2) (by decide)

/-- Argument "outside `[-1, 1]`" for a non-NaN double (NaN is not a number
and satisfies no order relation). -/
def outsideUnitInterval : D → Prop
  | .fin q => q < -1 ∨ 1 < q
  | .pinf => True
  | .ninf => True
  | .nan => False

/-- Argument "not strictly greater than 0" for a non-NaN double. -/
def notPositiveD : D → Prop
  | .fin q => q ≤ 0
  | .pinf => False
  | .ninf => True
  | .nan => False

/-- Negative argument, for a non-NaN double. -/
def negativeD : D → Prop
  | .fin q => q < 0
  | .pinf => False
  | .ninf => True
  | .nan => False

/-- C5: domain checks are total.  `asin`/`acos` with a
percentage-normalized argument outside `[-1,1]`, `log` with an argument not
strictly greater than 0, and `sqrt` with a negative argument always fail
with the `DomainError` kind and never return a value; concretely
`sqrt(-1)`, `log(0)` and `asin(2)` all fail with `DomainError`.  (A NaN
argument is not a number and is outside the scope of these order
conditions; it flows through the function and is reported as a failure by
the caller's `isnan` test instead.) -/
theorem C5_domain_errors_total :
    (∀ (ops : RealOps) (v : Value),
      outsideUnitInterval (normPct v) → applyFn ops .asin v = .error .domainError) ∧
    (∀ (ops : RealOps) (v : Value),
      outsideUnitInterval (normPct v) → applyFn ops .acos v = .error .domainError) ∧
    (∀ (ops : RealOps) (v : Value),
      notPositiveD (normPct v) → applyFn ops .log v = .error .domainError) ∧
    (∀ (ops : RealOps) (v : Value),
      negativeD (normPct v) → applyFn ops .sqrt v = .error .domainError) ∧
    (∀ (ops : RealOps) (st : CalcState),
      pipelineExcept ops st "sqrt(-1)" = .error (.eval .domainError) ∧
      pipelineExcept ops st "log(0)" = .error (.eval .domainError) ∧
      pipelineExcept ops st "asin(2)" = .error (.eval .domainError)) := by
  have hunit : ∀ v : Value, outsideUnitInterval (normPct v) →
      (dlt (normPct v) (.fin (qint (-1))) || dlt (.fin 1) (normPct v)) = true := by
    intro v h
    rw [qint_neg_one]
    cases hn : normPct v with
    | fin q =>
      rw [hn] at h
      rcases h with h | h
      · have hb := (dlt_fin_iff q (-1)).mpr h
        rw [hb, Bool.true_or]
      · have hb := (dlt_fin_iff 1 q).mpr h
        rw [hb, Bool.or_true]
    | pinf => rfl
    | ninf => rfl
    | nan => rw [hn] at h; exact False.elim h
  refine ⟨?_, ?_, ?_, ?_, ?_⟩
  · intro ops v h
    show (if (dlt (normPct v) (.fin (qint (-1))) || dlt (.fin 1) (normPct v)) = true
          then Except.error EvalErr.domainError else Except.ok (ops.asin (normPct v))) = _
    rw [if_pos (hunit v h)]
  · intro ops v h
    show (if (dlt (normPct v) (.fin (qint (-1))) || dlt (.fin 1) (normPct v)) = true
          then Except.error EvalErr.domainError else Except.ok (ops.acos (normPct v))) = _
    rw [if_pos (hunit v h)]
  · intro ops v h
    show (if dle (normPct v) (.fin 0) = true
          then Except.error EvalErr.domainError else Except.ok (ops.log (normPct v))) = _
    refine if_pos ?_
    cases hn : normPct v with
    | fin q =>
      rw [hn] at h
      exact (dle_fin_iff q 0).mpr h
    | pinf => rw [hn] at h; exact False.elim h
    | ninf => rfl
    | nan => rw [hn] at h; exact False.elim h
  · intro ops v h
    show (if dlt (normPct v) (.fin 0) = true
          then Except.error EvalErr.domainError else Except.ok (ops.sqrt (normPct v))) = _
    refine if_pos ?_
    cases hn : normPct v with
    | fin q =>
      rw [hn] at h
      exact (dlt_fin_iff q 0).mpr h
    | pinf => rw [hn] at h; exact False.elim h
    | ninf => rfl
    | nan => rw [hn] at h; exact False.elim h
  · intro ops st
    refine ⟨?_, ?_, ?_⟩ <;> (rw [pipelineExcept_eq_fuel]; rfl)

/-- Witness for C5 at concrete arguments 2 (asin/acos), 0 (log) and -1
(sqrt). -/
theorem C5_domain_errors_total_witness :
    (outsideUnitInterval (normPct ⟨.fin 2, false⟩) ∧
      applyFn dummyOps .asin ⟨.fin 2, false⟩ = .error .domainError ∧
      applyFn dummyOps .acos ⟨.fin 2, false⟩ = .error .domainError) ∧
    (notPositiveD (normPct ⟨.fin 0, false⟩) ∧
      applyFn dummyOps .log ⟨.fin 0, false⟩ = .error .domainError) ∧
    (negativeD (normPct ⟨.fin (qint (-1)), false⟩) ∧
      applyFn dummyOps .sqrt ⟨.fin (qint (-1)), false⟩ = .error .domainError) := by
  have h2 : outsideUnitInterval (normPct ⟨.fin 2, false⟩) := by
    show outsideUnitInterval (D.fin 2)
    show (2 : ℚ) < -1 ∨ 1 < (2 : ℚ)
    right
    norm_num
  have h0 : notPositiveD (normPct ⟨.fin 0, false⟩) := by
    show (0 : ℚ) ≤ 0
    norm_num
  have hm1 : negativeD (normPct ⟨.fin (qint (-1)), false⟩) := by
    show qint (-1) < 0
    rw [qint_neg_one]
    norm_num
  exact ⟨⟨h2, C5_domain_errors_total.1 dummyOps ⟨.fin 2, false⟩ h2,
      C5_domain_errors_total.2.1 dummyOps ⟨.fin 2, false⟩ h2⟩,
    ⟨h0, C5_domain_errors_total.2.2.1 dummyOps ⟨.fin 0, false⟩ h0⟩,
    ⟨hm1, C5_domain_errors_total.2.2.2.1 dummyOps ⟨.fin (qint (-1)), false⟩ hm1⟩⟩

/-- The return value of `evaluate_expression` is the pipeline value whenever
the pipeline succeeded, whether or not the state was committed. -/
theorem evalFromPipeline_ok_fst (v : D) (st : CalcState) :
    (evalFromPipeline (.ok v) st).1 = v := by
  show (if v.isNaN then ((v, st) : D × CalcState) else (v, commitSuccess st v)).1 = v
  split <;> rfl

/-- Tokenizing the single-variable line `x` against a store that binds `x`
to `d` yields the one number token `d`. -/
theorem tokenize_x (st : CalcState) (d : D) (h : findVariable st.vars "x" = some d) :
    tokenize st "x" = .ok [.num d false] := by
  have hres : resolveIdent st (String.mk ('x' :: List.takeWhile isIdentChar [])) =
      .ok (.num d false) := by
    unfold resolveIdent
    rw [if_neg (by decide), if_neg (by decide), if_neg (by decide), if_neg (by decide),
      if_neg (by decide), if_neg (by decide), if_neg (by decide), if_neg (by decide),
      if_neg (by decide), if_neg (by decide), if_neg (by decide)]
    show (match findVariable st.vars (String.mk ('x' :: List.takeWhile isIdentChar [])) with
      | some v => Except.ok (Token.num v false)
      | none => Except.error (LexErr.unknownIdentifier
          (String.mk ('x' :: List.takeWhile isIdentChar []))) : Except LexErr Token) = _
    rw [show findVariable st.vars (String.mk ('x' :: List.takeWhile isIdentChar []))
        = some d from h]
  show tokenizeAux st ['x'] true 0 = _
  rw [tokenizeAux]
  rw [if_neg (by decide), if_neg (by decide), if_pos (by decide), if_neg (by decide),
    if_neg (by decide)]
  rw [hres]
  show Except.map _ (tokenizeAux st (List.dropWhile isIdentChar []) false 1) = _
  rw [show (List.dropWhile isIdentChar []) = ([] : List Char) from rfl]
  rw [tokenizeAux]
  rfl

/-- Evaluating the single-variable line `x` against a store that binds `x`
to a non-NaN `d` returns `d`. -/
theorem pipeline_var_x (ops : RealOps) (st : CalcState) (d : D)
    (h : findVariable st.vars "x" = some d) :
    pipelineExcept ops st "x" = .ok d := by
  rw [pipelineExcept, tokenize_x st d h]
  rfl

/-- C6: assignment round-trips through the variable store.  After a
successful `handle_assignment("x", "5*2")` the result is 10, `x` is bound
to 10 in the resulting store, and a subsequent `evaluate("x")` returns 10.
Moreover, after every successful `evaluate_expression` or
`handle_assignment` against a state whose store already binds `ans` (which
`main` establishes at startup), `last_result` and the `ans` binding both
equal that evaluation's result. -/
theorem C6_assignment_roundtrip :
    (∀ (ops : RealOps) (st : CalcState) (r : D) (st' : CalcState),
      handle_assignment ops "x" "5*2" st = (r, st') → r.isNaN = false →
      r = .fin 10 ∧ findVariable st'.vars "x" = some (.fin 10) ∧
      (evaluate_expression ops "x" st').1 = .fin 10) ∧
    (∀ (ops : RealOps) (input : String) (st : CalcState),
      (findVariable st.vars "ans").isSome = true →
      (evaluate_expression ops input st).1.isNaN = false →
      (evaluate_expression ops input st).2.lastResult = (evaluate_expression ops input st).1 ∧
      findVariable (evaluate_expression ops input st).2.vars "ans" =
        some (evaluate_expression ops input st).1) ∧
    (∀ (ops : RealOps) (name expr : String) (st : CalcState),
      (findVariable st.vars "ans").isSome = true →
      (handle_assignment ops name expr st).1.isNaN = false →
      (handle_assignment ops name expr st).2.lastResult =
        (handle_assignment ops name expr st).1 ∧
      findVariable (handle_assignment ops name expr st).2.vars "ans" =
        some (handle_assignment ops name expr st).1) := by
  refine ⟨?_, ?_, ?_⟩
  · intro ops st r st' hha hnan
    have hp : pipelineExcept ops st "5*2" = .ok (.fin 10) := by
      rw [pipelineExcept_eq_fuel]; rfl
    rw [handle_assignment, hp] at hha
    have h1 : assignFromPipeline "x" (Except.ok (D.fin 10)) st =
        (match setVariable st.vars "x" (.fin 10) with
         | none => ((.nan, st) : D × CalcState)
         | some vs1 =>
             (.fin 10, { vars := (setVariable vs1 "ans" (.fin 10)).getD vs1,
                         lastResult := .fin 10 })) := by
      show (if (D.fin 10).isNaN then ((D.fin 10, st) : D × CalcState) else _) = _
      rw [if_neg (show ¬((D.fin 10).isNaN = true) by decide)]
      rfl
    rw [h1] at hha
    cases hs : setVariable st.vars "x" (.fin 10) with
    | none =>
      rw [hs] at hha
      exfalso
      have hr : r = D.nan := by
        have := congrArg Prod.fst hha
        simpa using this.symm
      rw [hr] at hnan
      simp [D.isNaN] at hnan
    | some vs1 =>
      rw [hs] at hha
      rw [Prod.mk.injEq] at hha
      obtain ⟨hr, hst⟩ := hha
      have hx1 : findVariable vs1 "x" = some (.fin 10) := setVariable_self _ _ _ _ hs
      have hx' : findVariable ((setVariable vs1 "ans" (.fin 10)).getD vs1) "x"
          = some (.fin 10) := by
        cases hs2 : setVariable vs1 "ans" (.fin 10) with
        | none => simpa using hx1
        | some vs2 =>
          simpa using (setVariable_other vs1 vs2 "ans" "x" (.fin 10) hs2
            (by decide)).trans hx1
      refine ⟨hr.symm, ?_, ?_⟩
      · rw [← hst]
        exact hx'
      · have hxst : findVariable st'.vars "x" = some (.fin 10) := by
          rw [← hst]
          exact hx'
        rw [evaluate_expression, pipeline_var_x ops st' (.fin 10) hxst]
        rw [evalFromPipeline_ok_fst]
  · intro ops input st hans hnan
    rw [evaluate_expression] at hnan ⊢
    cases hp : pipelineExcept ops st input with
    | error e =>
      rw [hp] at hnan
      simp [evalFromPipeline, D.isNaN] at hnan
    | ok v =>
      rw [hp] at hnan
      rw [evalFromPipeline_ok_fst] at hnan
      have h1 : evalFromPipeline (.ok v) st = (v, commitSuccess st v) := by
        show (if v.isNaN then ((v, st) : D × CalcState) else (v, commitSuccess st v)) = _
        rw [if_neg (by rw [hnan]; exact Bool.false_ne_true)]
      rw [h1]
      constructor
      · rfl
      · show findVariable (commitSuccess st v).vars "ans" = some v
        unfold commitSuccess
        rw [setVariable_of_found st.vars "ans" v (by decide) hans]
        show findVariable (replaceFirst st.vars "ans" v) "ans" = some v
        exact findVariable_replaceFirst_self _ _ _ hans
  · intro ops name expr st hans hnan
    rw [handle_assignment] at hnan ⊢
    cases hp : pipelineExcept ops st expr with
    | error e =>
      rw [hp] at hnan
      simp [assignFromPipeline, D.isNaN] at hnan
    | ok v =>
      rw [hp] at hnan
      by_cases hv : v.isNaN = true
      · exfalso
        have : assignFromPipeline name (.ok v) st = (v, st) := by
          show (if v.isNaN then ((v, st) : D × CalcState) else _) = _
          rw [if_pos hv]
        rw [this] at hnan
        rw [hnan] at hv
        exact Bool.false_ne_true hv
      · have h1 : assignFromPipeline name (Except.ok v) st =
            (match setVariable st.vars name v with
             | none => ((.nan, st) : D × CalcState)
             | some vs1 =>
                 (v, { vars := (setVariable vs1 "ans" v).getD vs1, lastResult := v })) := by
          show (if v.isNaN then ((v, st) : D × CalcState) else _) = _
          rw [if_neg hv]
        rw [h1] at hnan ⊢
        cases hs : setVariable st.vars name v with
        | none =>
          rw [hs] at hnan
          simp [D.isNaN] at hnan
        | some vs1 =>
          rw [hs] at hnan
          have hans1 : (findVariable vs1 "ans").isSome = true :=
            setVariable_preserves_isSome st.vars vs1 name "ans" v hs hans
          constructor
          · rfl
          · show findVariable ((setVariable vs1 "ans" v).getD vs1) "ans" = some v
            rw [setVariable_of_found vs1 "ans" v (by decide) hans1]
            show findVariable (replaceFirst vs1 "ans" v) "ans" = some v
            exact findVariable_replaceFirst_self _ _ _ hans1

/-- Witness for C6: the round-trip at the startup state. -/
theorem C6_assignment_roundtrip_witness :
    (handle_assignment dummyOps "x" "5*2" initState).1.isNaN = false ∧
    (findVariable initState.vars "ans").isSome = true ∧
    (evaluate_expression dummyOps "x"
      (handle_assignment dummyOps "x" "5*2" initState).2).1 = .fin 10 ∧
    (evaluate_expression dummyOps "2+2" initState).2.lastResult = .fin 4 := by
  refine ⟨by rw [handle_assignment_eq_fuel]; rfl, by decide, ?_, ?_⟩
  · exact (C6_assignment_roundtrip.1 dummyOps initState
      (handle_assignment dummyOps "x" "5*2" initState).1
      (handle_assignment dummyOps "x" "5*2" initState).2
      Prod.mk.eta.symm (by rw [handle_assignment_eq_fuel]; rfl)).2.2
  · have := (C6_assignment_roundtrip.2.1 dummyOps "2+2" initState (by decide)
      (by rw [evaluate_expression_eq_fuel]; rfl)).1
    rw [this]
    rw [evaluate_expression_eq_fuel]
    rfl

/-- The constant names recognized by the tokenizer, in source order. -/
def constantNames : List String :=
  ["pi", "e", "phi", "gamma", "c", "h", "G", "Na", "k", "inf", "ans"]

/-- An identifier that is no constant, no function and no stored variable
resolves to the unknown-identifier error. -/
theorem resolveIdent_unknown (st : CalcState) (name : String)
    (hmem : name ∉ constantNames) (hfun : lookupFunc name = none)
    (hvar : findVariable st.vars name = none) :
    resolveIdent st name = .error (.unknownIdentifier name) := by
  simp only [constantNames, List.mem_cons, List.not_mem_nil, or_false, not_or] at hmem
  obtain ⟨h1, h2, h3, h4, h5, h6, h7, h8, h9, h10, h11⟩ := hmem
  unfold resolveIdent
  rw [if_neg (by simpa using h1), if_neg (by simpa using h2), if_neg (by simpa using h3),
    if_neg (by simpa using h4), if_neg (by simpa using h5), if_neg (by simpa using h6),
    if_neg (by simpa using h7), if_neg (by simpa using h8), if_neg (by simpa using h9),
    if_neg (by simpa using h10), if_neg (by simpa using h11)]
  rw [hfun, hvar]

/-- Tokenizing the line `foo` against a store with no binding for `foo`
fails with the unknown-identifier error. -/
theorem tokenize_foo (st : CalcState) (h : findVariable st.vars "foo" = none) :
    tokenize st "foo" = .error (.unknownIdentifier "foo") := by
  have hres : resolveIdent st (String.mk ('f' :: List.takeWhile isIdentChar ['o', 'o'])) =
      .error (.unknownIdentifier (String.mk ('f' :: List.takeWhile isIdentChar ['o', 'o']))) := by
    refine resolveIdent_unknown st _ (by decide) (by decide) ?_
    exact h
  show tokenizeAux st ['f', 'o', 'o'] true 0 = _
  rw [tokenizeAux]
  rw [if_neg (by decide), if_neg (by decide), if_pos (by decide), if_neg (by decide),
    if_neg (by decide)]
  rw [hres]
  rfl

/-- C7: an identifier that is not an assignment target (the tokenizer's `=`
lookahead handles those before resolution), not a known constant, not a
known function name, and not present in the variable store makes
tokenization fail with the `UnknownIdentifier` error kind — it never
resolves silently to a number.  Concretely, `foo` against a store with no
`foo` binding fails the whole pipeline with that kind. -/
theorem C7_unknown_identifier :
    (∀ (st : CalcState) (name : String),
      name ∉ constantNames → lookupFunc name = none → findVariable st.vars name = none →
      resolveIdent st name = .error (.unknownIdentifier name)) ∧
    (∀ (ops : RealOps) (st : CalcState),
      findVariable st.vars "foo" = none →
      pipelineExcept ops st "foo" = .error (.lex (.unknownIdentifier "foo"))) := by
  constructor
  · exact resolveIdent_unknown
  · intro ops st h
    rw [pipelineExcept, tokenize_foo st h]
    rfl

/-- Witness for C7 at the startup state and the identifier `foo`. -/
theorem C7_unknown_identifier_witness :
    ("foo" ∉ constantNames ∧ lookupFunc "foo" = none ∧
      findVariable initState.vars "foo" = none) ∧
    resolveIdent initState "foo" = .error (.unknownIdentifier "foo") ∧
    pipelineExcept dummyOps initState "foo" = .error (.lex (.unknownIdentifier "foo")) :=
  ⟨⟨by decide, by decide, by decide⟩,
   C7_unknown_identifier.1 initState "foo" (by decide) (by decide) (by decide),
   C7_unknown_identifier.2 dummyOps initState (by decide)⟩

/-- C8 counterexample: the claim says assignment to any function name,
constant name, or command name is rejected — but `main`'s reserved-name
check covers only `help`, `exit`, `pi`, `e`, `sin`.  The lines `phi=1`
(`phi` is a constant) and `cos=1` (`cos` is a function) are classified as
assignments and performed, not rejected. -/
theorem C8_counterexample_reserved_names :
    classifyLine "phi=1" = .assign "phi" "1" ∧ "phi" ∈ constantNames ∧
    classifyLine "cos=1" = .assign "cos" "1" ∧ lookupFunc "cos" = some .cos ∧
    "phi" ∉ reservedNames ∧ "cos" ∉ reservedNames := by
  refine ⟨by decide, by decide, by decide, by decide, by decide, by decide⟩

theorem classifyAssign_eq_assign_iff (cs : List Char) (i : ℕ) (n e : String) :
    classifyAssign cs i = .assign n e ↔
      (n = String.mk (dropTrailingSpaces (cs.take i)) ∧
       e = String.mk (cs.drop (i + 1)) ∧
       0 < (dropTrailingSpaces (cs.take i)).length ∧
       (dropTrailingSpaces (cs.take i)).length < maxIdentifierLen ∧
       validIdentName (dropTrailingSpaces (cs.take i)) = true ∧
       String.mk (dropTrailingSpaces (cs.take i)) ∉ reservedNames) := by
  unfold classifyAssign
  split_ifs with h1 h2
  · rw [Bool.and_eq_true] at h2
    obtain ⟨hval, hncon⟩ := h2
    have hc : reservedNames.contains (String.mk (dropTrailingSpaces (cs.take i))) = false := by
      revert hncon
      cases reservedNames.contains (String.mk (dropTrailingSpaces (cs.take i))) <;> simp
    constructor
    · intro h
      injection h with hn he
      refine ⟨hn.symm, he.symm, h1.1, h1.2, hval, ?_⟩
      intro hmem
      exact Bool.noConfusion ((List.elem_iff.mpr hmem).symm.trans hc)
    · intro ⟨hn, he, _, _, _, _⟩
      rw [hn, he]
  · constructor
    · intro h
      simp at h
    · intro ⟨hn, he, _, _, hv, hm⟩
      exfalso
      apply h2
      rw [Bool.and_eq_true]
      refine ⟨hv, ?_⟩
      have hc : reservedNames.contains (String.mk (dropTrailingSpaces (cs.take i))) = false := by
        cases hcon : reservedNames.contains (String.mk (dropTrailingSpaces (cs.take i))) with
        | false => rfl
        | true => exact absurd (List.elem_iff.mp hcon) hm
      rw [hc]
      rfl
  · constructor
    · intro h
      simp at h
    · intro ⟨hn, he, hl1, hl2, _, _⟩
      exact absurd ⟨hl1, hl2⟩ h1

theorem classifyLine_none (line : String)
    (h : line.toList.findIdx? (fun c => c == '=') = none) :
    classifyLine line = .expression := by
  unfold classifyLine
  rw [h]

theorem classifyLine_some (line : String) (i : ℕ)
    (h : line.toList.findIdx? (fun c => c == '=') = some i) :
    classifyLine line =
      (if i = 0 then .expression
       else classifyWithOp line.toList i (line.toList.findIdx? isOpChar)) := by
  unfold classifyLine
  rw [h]

/-- C8 (amended): a (left-trimmed, non-command) line is treated as an
assignment — i.e. `handle_assignment` is invoked — iff it contains `=`
strictly before any of `+ - * / ^ %`, the `=` is not the first character,
and the left-hand side (with trailing whitespace trimmed) is a non-empty
syntactically valid identifier (`[A-Za-z_][A-Za-z0-9_]*`) of fewer than 32
characters that is not one of the five reserved names `help`, `exit`,
`pi`, `e`, `sin`.  (The claim's full reserved set — all function, constant
and command names — is refuted by `C8_counterexample_reserved_names`.) -/
theorem C8_assignment_detection_amended :
    ∀ (line : String) (n e : String),
      classifyLine line = .assign n e ↔
        ∃ i, line.toList.findIdx? (fun c => c == '=') = some i ∧ i ≠ 0 ∧
          (∀ j, line.toList.findIdx? isOpChar = some j → i < j) ∧
          n = String.mk (dropTrailingSpaces (line.toList.take i)) ∧
          e = String.mk (line.toList.drop (i + 1)) ∧
          0 < n.length ∧ n.length < maxIdentifierLen ∧
          validIdentName n.toList = true ∧ n ∉ reservedNames := by
  intro line n e
  cases h1 : line.toList.findIdx? (fun c => c == '=') with
  | none =>
    rw [classifyLine_none line h1]
    constructor
    · intro h
      simp at h
    · intro ⟨i, hi, _⟩
      exact Option.noConfusion hi
  | some i =>
    rw [classifyLine_some line i h1]
    have hmain : classifyAssign line.toList i = .assign n e ↔
        (n = String.mk (dropTrailingSpaces (line.toList.take i)) ∧
         e = String.mk (line.toList.drop (i + 1)) ∧
         0 < n.length ∧ n.length < maxIdentifierLen ∧
         validIdentName n.toList = true ∧ n ∉ reservedNames) := by
      rw [classifyAssign_eq_assign_iff]
      constructor
      · intro ⟨hn, he, ha, hb, hc, hd⟩
        subst hn
        exact ⟨rfl, he, ha, hb, hc, hd⟩
      · intro ⟨hn, he, ha, hb, hc, hd⟩
        subst hn
        exact ⟨rfl, he, ha, hb, hc, hd⟩
    by_cases h2 : i = 0
    · subst h2
      rw [if_pos rfl]
      constructor
      · intro h
        simp at h
      · intro ⟨i', hi', hne, _⟩
        injection hi' with hi2
        exact absurd hi2.symm hne
    · rw [if_neg h2]
      cases h3 : line.toList.findIdx? isOpChar with
      | none =>
        simp only [classifyWithOp]
        rw [hmain]
        constructor
        · intro ⟨hn, he, ha, hb, hc, hd⟩
          exact ⟨i, rfl, h2, fun j hj => Option.noConfusion hj, hn, he, ha, hb, hc, hd⟩
        · intro ⟨i', hi', hne, hop, hn, he, ha, hb, hc, hd⟩
          injection hi' with hi2
          subst hi2
          exact ⟨hn, he, ha, hb, hc, hd⟩
      | some j =>
        simp only [classifyWithOp]
        by_cases h4 : i < j
        · rw [if_pos h4, hmain]
          constructor
          · intro ⟨hn, he, ha, hb, hc, hd⟩
            refine ⟨i, rfl, h2, ?_, hn, he, ha, hb, hc, hd⟩
            intro j' hj'
            injection hj' with hj2
            rw [← hj2]
            exact h4
          · intro ⟨i', hi', hne, hop, hn, he, ha, hb, hc, hd⟩
            injection hi' with hi2
            subst hi2
            exact ⟨hn, he, ha, hb, hc, hd⟩
        · rw [if_neg h4]
          constructor
          · intro h
            simp at h
          · intro ⟨i', hi', hne, hop, _⟩
            injection hi' with hi2
            subst hi2
            exact absurd (hop j rfl) h4

/-- C9: a computed NaN is indistinguishable from a typed error at the
public interface.  Whenever the pipeline *succeeds* with the NaN value (no
guarded error branch fired), `evaluate_expression` still reports failure
(returns NaN) and leaves the state untouched, and batch mode exits with
code 1 — exactly as for a typed error.  `inf - inf` (via the `inf`
constant) and `(0-1)^0.5` (Pow has no domain check; a negative base with a
non-integer exponent gives NaN) are concrete such expressions. -/
theorem C9_nan_indistinguishable_from_error :
    (∀ (ops : RealOps) (st : CalcState) (input : String) (v : D),
      pipelineExcept ops st input = .ok v → v.isNaN = true →
      evaluate_expression ops input st = (v, st)) ∧
    (∀ (ops : RealOps) (st : CalcState) (args : List String) (v : D),
      pipelineExcept ops st (String.intercalate " " args) = .ok v → v.isNaN = true →
      batchExitCode ops args st = 1) ∧
    (∀ (ops : RealOps) (st : CalcState),
      pipelineExcept ops st "inf - inf" = .ok .nan ∧
      pipelineExcept ops st "(0-1)^0.5" = .ok .nan ∧
      evaluate_expression ops "inf - inf" st = (.nan, st)) := by
  have hmain : ∀ (ops : RealOps) (st : CalcState) (input : String) (v : D),
      pipelineExcept ops st input = .ok v → v.isNaN = true →
      evaluate_expression ops input st = (v, st) := by
    intro ops st input v hp hv
    rw [evaluate_expression, hp]
    show (if v.isNaN then ((v, st) : D × CalcState) else (v, commitSuccess st v)) = _
    rw [if_pos hv]
  refine ⟨hmain, ?_, ?_⟩
  · intro ops st args v hp hv
    unfold batchExitCode
    split_ifs with h1 h2
    · rfl
    · rfl
    · exfalso
      apply h2
      rw [hmain ops st (String.intercalate " " args) v hp hv]
      exact hv
  · intro ops st
    refine ⟨?_, ?_, ?_⟩
    · rw [pipelineExcept_eq_fuel]; rfl
    · rw [pipelineExcept_eq_fuel]; rfl
    · rw [evaluate_expression_eq_fuel]; rfl

/-- Witness for C9 at `inf - inf` against the startup state. -/
theorem C9_nan_indistinguishable_from_error_witness :
    pipelineExcept dummyOps initState "inf - inf" = .ok .nan ∧
    (D.nan).isNaN = true ∧
    evaluate_expression dummyOps "inf - inf" initState = (.nan, initState) ∧
    batchExitCode dummyOps ["inf", "-", "inf"] initState = 1 := by
  refine ⟨by rw [pipelineExcept_eq_fuel]; rfl, rfl, ?_, ?_⟩
  · exact (C9_nan_indistinguishable_from_error.1 dummyOps initState "inf - inf" .nan
      (by rw [pipelineExcept_eq_fuel]; rfl) rfl)
  · exact (C9_nan_indistinguishable_from_error.2.1 dummyOps initState ["inf", "-", "inf"] .nan
      (by rw [pipelineExcept_eq_fuel]; rfl) rfl)

/-- C10: a unary sign in operand position is lexed as a synthetic `0`
followed by the precedence-1 binary operator, so a unary minus right after
`*` or `^` binds as a subtraction from the whole preceding term instead of
negating its operand: `2*-3` tokenizes as `2 * 0 - 3` and evaluates to
`(2*0)-3 = -3` (not `-6`), and `2^-1` evaluates to `(2^0)-1 = 0` (not
`0.5`). -/
theorem C10_unary_minus_binding :
    ∀ (ops : RealOps) (st : CalcState),
      tokenize st "2*-3" =
        .ok [.num (.fin 2) false, .op .mul, .num (.fin 0) false, .op .sub,
          .num (.fin 3) false] ∧
      shunting_yard [.num (.fin 2) false, .op .mul, .num (.fin 0) false, .op .sub,
          .num (.fin 3) false] =
        .ok [.num (.fin 2) false, .num (.fin 0) false, .op .mul, .num (.fin 3) false,
          .op .sub] ∧
      (evaluate_expression ops "2*-3" st).1 = .fin (-3) ∧
      (evaluate_expression ops "2^-1" st).1 = .fin 0 := by
  intro ops st
  refine ⟨?_, ?_, ?_, ?_⟩
  · rw [tokenize_eq_fuel]; rfl
  · rfl
  · have h : (evaluate_expression ops "2*-3" st).1 = .fin (qint (-3)) := by
      rw [evaluate_expression_eq_fuel]; rfl
    rw [h, qint_eq]
    norm_num
  · rw [evaluate_expression_eq_fuel]; rfl

end Nmri
